import Mathlib

set_option maxRecDepth 8000

/-!
Verification of the high-performance comparator core and the three-way
validation logic of the pymilvus-pg repository, via a shallow embedding of
`src/pymilvus_pg/comparators.py` (and, for the Three-Way Validator whose
implementation is not among the sources, a model taken from the
specification).  Python runtime values are embedded as `PyValue`; Python
floats are modelled as rationals (finite doubles), Python exceptions as an
explicit `Except PyErr` result.
-/

/-- Kinds of Python exceptions relevant to the comparator code.  The
comparators catch `ValueError` and `TypeError`; `OverflowError` (raised by
`float(i)` on an out-of-range int) and `AttributeError` are not caught. -/
inductive PyErr where
  | valueError
  | typeError
  | overflowError
  | attributeError
deriving DecidableEq, Repr

/-- Embedded Python value: `None`, bool, int (arbitrary precision), float
(modelled as a rational), str, list, and dict with string keys (an
association list in insertion order, as produced by this system's rows,
JSON documents and dynamic-field maps). -/
inductive PyValue where
  | vNone
  | vBool (b : Bool)
  | vInt (i : Int)
  | vFloat (q : ℚ)
  | vStr (s : String)
  | vList (xs : List PyValue)
  | vDict (xs : List (String × PyValue))

/-- Python `x is None`. -/
def PyValue.isNone : PyValue → Bool
  | .vNone => true
  | _ => false

/-- Python truthiness `bool(x)` for the embedded universe (never raises). -/
def pyTruthy : PyValue → Bool
  | .vNone => false
  | .vBool b => b
  | .vInt i => i ≠ 0
  | .vFloat q => q ≠ 0
  | .vStr s => s ≠ ""
  | .vList xs => !xs.isEmpty
  | .vDict xs => !xs.isEmpty

mutual
/-- Python `==` on embedded values: numeric kinds (bool/int/float) compare by
numeric value across kinds, strings by equality, lists element-wise, dicts
entry-wise in insertion order (the dicts this system compares are built in a
canonical order, so insertion-order comparison coincides with Python's
order-insensitive dict equality on them). -/
def pyEq : PyValue → PyValue → Bool
  | .vNone, .vNone => true
  | .vBool a, .vBool b => a == b
  | .vBool a, .vInt n => (if a then (1 : Int) else 0) == n
  | .vInt n, .vBool a => n == (if a then (1 : Int) else 0)
  | .vBool a, .vFloat q => (if a then (1 : ℚ) else 0) == q
  | .vFloat q, .vBool a => q == (if a then (1 : ℚ) else 0)
  | .vInt a, .vInt b => a == b
  | .vInt a, .vFloat q => ((a : ℚ)) == q
  | .vFloat q, .vInt a => q == ((a : ℚ))
  | .vFloat a, .vFloat b => a == b
  | .vStr a, .vStr b => a == b
  | .vList a, .vList b => pyEqList a b
  | .vDict a, .vDict b => pyEqDict a b
  | _, _ => false

/-- Element-wise Python `==` on lists. -/
def pyEqList : List PyValue → List PyValue → Bool
  | [], [] => true
  | a :: as, b :: bs => pyEq a b && pyEqList as bs
  | _, _ => false

/-- Entry-wise Python `==` on dict association lists. -/
def pyEqDict : List (String × PyValue) → List (String × PyValue) → Bool
  | [], [] => true
  | (k, v) :: as, (k2, v2) :: bs => k == k2 && pyEq v v2 && pyEqDict as bs
  | _, _ => false
end

mutual
/-- Python `str(x)`: a rendering of an embedded value.  The comparators only
ever compare two applications of this function, so the exact format is
immaterial; floats render as rationals and container entries are rendered
recursively (a simplification of `repr`-based element rendering). -/
def pyStr : PyValue → String
  | .vNone => "None"
  | .vBool b => if b then "True" else "False"
  | .vInt i => toString i
  | .vFloat q => toString q
  | .vStr s => s
  | .vList xs => "[" ++ pyStrList xs ++ "]"
  | .vDict xs => "\x7b" ++ pyStrDict xs ++ "\x7d"

/-- Comma-separated rendering of list elements. -/
def pyStrList : List PyValue → String
  | [] => ""
  | [x] => pyStr x
  | x :: xs => pyStr x ++ ", " ++ pyStrList xs

/-- Comma-separated rendering of dict entries. -/
def pyStrDict : List (String × PyValue) → String
  | [] => ""
  | [(k, v)] => k ++ ": " ++ pyStr v
  | (k, v) :: xs => k ++ ": " ++ pyStr v ++ ", " ++ pyStrDict xs
end

/-- First-match association-list lookup, the model of Python `dict[k]` /
`dict.get(k)` (dicts have unique keys, so first match is the match). -/
def lookupD (k : String) : List (String × PyValue) → Option PyValue
  | [] => none
  | (k2, v) :: rest => if k2 = k then some v else lookupD k rest

/-- Magnitude bound above which `float(i)` on a Python int raises
`OverflowError` (the IEEE-double range boundary, approximated at `2 ^ 1024`). -/
def floatIntLimit : Nat := 2 ^ 1024

mutual
/-- Every int occurring in the value is small enough that a `float()`
conversion of it cannot raise `OverflowError`. -/
def intsBounded : PyValue → Bool
  | .vInt i => i.natAbs < floatIntLimit
  | .vList xs => intsBoundedList xs
  | .vDict xs => intsBoundedDict xs
  | _ => true

/-- `intsBounded` over a list of values. -/
def intsBoundedList : List PyValue → Bool
  | [] => true
  | x :: xs => intsBounded x && intsBoundedList xs

/-- `intsBounded` over dict entries. -/
def intsBoundedDict : List (String × PyValue) → Bool
  | [] => true
  | (_, v) :: xs => intsBounded v && intsBoundedDict xs
end

/-- No duplicates in a key list (Python dicts cannot have duplicate keys). -/
def noDupKeys : List String → Bool
  | [] => true
  | k :: ks => !ks.contains k && noDupKeys ks

mutual
/-- Every dict nested in the value has pairwise-distinct keys, as every
genuine Python dict does. -/
def keysNodupV : PyValue → Bool
  | .vList xs => keysNodupList xs
  | .vDict xs => noDupKeys (xs.map Prod.fst) && keysNodupDict xs
  | _ => true

/-- `keysNodupV` over a list of values. -/
def keysNodupList : List PyValue → Bool
  | [] => true
  | x :: xs => keysNodupV x && keysNodupList xs

/-- `keysNodupV` over dict entries. -/
def keysNodupDict : List (String × PyValue) → Bool
  | [] => true
  | (_, v) :: xs => keysNodupV v && keysNodupDict xs
end

/-- A well-formed stored value: ints within float range and genuine
(duplicate-free) dicts. -/
def wfV (v : PyValue) : Bool := intsBounded v && keysNodupV v

/-- Accumulating decimal-digit parser. -/
def digitsToNat (acc : Nat) : List Char → Option Nat
  | [] => some acc
  | c :: cs => if c.isDigit then digitsToNat (acc * 10 + (c.toNat - 48)) cs else none

/-- Parse an unsigned decimal numeral with optional fractional part
(`"12"`, `"12.5"`, `"12."`, `".5"`), the grammar accepted by Python
`float()` restricted to plain decimals (no exponent or inf/nan forms). -/
def parseUnsignedFloat (cs : List Char) : Option ℚ :=
  let ip := cs.takeWhile Char.isDigit
  match cs.dropWhile Char.isDigit with
  | [] => if ip.isEmpty then none else (digitsToNat 0 ip).map (fun n => (n : ℚ))
  | c :: fp =>
      if c = '.' then
        if fp.any (fun d => !d.isDigit) then none
        else if ip.isEmpty && fp.isEmpty then none
        else
          match digitsToNat 0 ip, digitsToNat 0 fp with
          | some i, some f => some ((i : ℚ) + (f : ℚ) / ((10 : ℚ) ^ fp.length))
          | _, _ => none
      else none

/-- Python `float(s)` on a string: optional sign around an unsigned decimal,
with surrounding whitespace stripped. -/
def parseFloatStr (s : String) : Option ℚ :=
  match s.trim.data with
  | '+' :: rest => parseUnsignedFloat rest
  | '-' :: rest => (parseUnsignedFloat rest).map Neg.neg
  | cs => parseUnsignedFloat cs

/-- Python `int(s)` on a string: optional sign and decimal digits only
(`int("1.5")` raises `ValueError`). -/
def parseIntStr (s : String) : Option Int :=
  match s.trim.data with
  | [] => none
  | '+' :: rest => if rest.isEmpty then none else (digitsToNat 0 rest).map Int.ofNat
  | '-' :: rest => if rest.isEmpty then none else (digitsToNat 0 rest).map (fun n => -(n : Int))
  | cs => (digitsToNat 0 cs).map Int.ofNat

/-- Python `float(x)`: bools become 0/1, ints convert unless out of double
range (`OverflowError`), floats pass through, strings are parsed
(`ValueError` on failure), everything else raises `TypeError`. -/
def pyToFloat : PyValue → Except PyErr ℚ
  | .vNone => .error .typeError
  | .vBool b => .ok (if b then 1 else 0)
  | .vInt i => if i.natAbs < floatIntLimit then .ok ((i : ℚ)) else .error .overflowError
  | .vFloat q => .ok q
  | .vStr s =>
      match parseFloatStr s with
      | some q => .ok q
      | none => .error .valueError
  | .vList _ => .error .typeError
  | .vDict _ => .error .typeError

/-- Truncation toward zero, the rounding of Python `int(float)`. -/
def ratTrunc (q : ℚ) : Int := if 0 ≤ q then ⌊q⌋ else -⌊-q⌋

/-- Python `int(x)`: bools/ints exact, floats truncate toward zero, strings
parse as integers (`ValueError` otherwise), everything else `TypeError`. -/
def pyToInt : PyValue → Except PyErr Int
  | .vNone => .error .typeError
  | .vBool b => .ok (if b then 1 else 0)
  | .vInt i => .ok i
  | .vFloat q => .ok (ratTrunc q)
  | .vStr s =>
      match parseIntStr s with
      | some i => .ok i
      | none => .error .valueError
  | .vList _ => .error .typeError
  | .vDict _ => .error .typeError

/-- `math.isclose(a, b, abs_tol, rel_tol)`:
`|a - b| ≤ max(rel_tol * max(|a|, |b|), abs_tol)`. -/
def mathIsclose (a b relTol absTol : ℚ) : Bool :=
  decide (|a - b| ≤ max (relTol * max |a| |b|) absTol)

/-- Is the exception caught by an `except (ValueError, TypeError)` clause? -/
def caughtVT : PyErr → Bool
  | .valueError => true
  | .typeError => true
  | _ => false

/-- `ToleranceConfig`: the numeric/string/structural comparison thresholds
and the schema-aware policy flags, with the source's default values
(`vector_sample_ratio` is rendered here as `vector_sample_rate`). -/
structure ToleranceConfig where
  float_absolute_tolerance : ℚ := 1 / 1000000
  float_relative_tolerance : ℚ := 1 / 100000
  vector_absolute_tolerance : ℚ := 1 / 1000
  vector_relative_tolerance : ℚ := 1 / 100
  vector_sample_rate : ℚ := 1
  vector_min_sample_size : Int := 8
  string_case_sensitive : Bool := true
  json_ignore_order : Bool := true
  json_strict_type : Bool := false
  handle_default_values : Bool := true
  handle_nullable_fields : Bool := true
  handle_dynamic_fields : Bool := true
  treat_missing_as_default : Bool := true
  ignore_default_value_diffs : Bool := true
  null_equals_missing : Bool := true
  null_equals_default : Bool := false

/-- The default `ToleranceConfig()`. -/
def defaultConfig : ToleranceConfig := {}

namespace NumericComparator

/-- `data_type in ["INT8", "INT16", "INT32", "INT64"]`. -/
def isIntegerType (dt : String) : Bool :=
  dt = "INT8" || dt = "INT16" || dt = "INT32" || dt = "INT64"

/-- `NumericComparator.compare`: `None` handling, then integer conversion and
exact equality for integer types, float conversion and `math.isclose` for
float types; a caught conversion failure (ValueError/TypeError) falls back to
string equality of the raw values, any other exception propagates. -/
def compare (cfg : ToleranceConfig) (isInteger : Bool) (v1 v2 : PyValue) :
    Except PyErr Bool :=
  if v1.isNone && v2.isNone then .ok true
  else if v1.isNone || v2.isNone then .ok false
  else if isInteger then
    match pyToInt v1 with
    | .error e => if caughtVT e then .ok (pyStr v1 == pyStr v2) else .error e
    | .ok n1 =>
      match pyToInt v2 with
      | .error e => if caughtVT e then .ok (pyStr v1 == pyStr v2) else .error e
      | .ok n2 => .ok (n1 == n2)
  else
    match pyToFloat v1 with
    | .error e => if caughtVT e then .ok (pyStr v1 == pyStr v2) else .error e
    | .ok q1 =>
      match pyToFloat v2 with
      | .error e => if caughtVT e then .ok (pyStr v1 == pyStr v2) else .error e
      | .ok q2 =>
          .ok (mathIsclose q1 q2 cfg.float_relative_tolerance
            cfg.float_absolute_tolerance)

end NumericComparator

namespace StringComparator

/-- `StringComparator.compare`: `None` handling, then (optionally
case-folded) equality of the `str()` renderings.  Total. -/
def compare (cfg : ToleranceConfig) (v1 v2 : PyValue) : Bool :=
  if v1.isNone && v2.isNone then true
  else if v1.isNone || v2.isNone then false
  else if cfg.string_case_sensitive then pyStr v1 == pyStr v2
  else (pyStr v1).toLower == (pyStr v2).toLower

end StringComparator

namespace BooleanComparator

/-- `BooleanComparator.compare`: `None` handling, then equality of
truthiness (`bool(x)` cannot raise on embedded values, so the string
fallback in the source is dead code).  Total. -/
def compare (v1 v2 : PyValue) : Bool :=
  if v1.isNone && v2.isNone then true
  else if v1.isNone || v2.isNone then false
  else pyTruthy v1 == pyTruthy v2

end BooleanComparator

namespace VectorComparator

/-- Element-wise numeric conversion of a list operand, left to right,
stopping at the first failure — the visible behavior of
`np.array(list, dtype=np.float32)`. -/
def toVecElems : List PyValue → Except PyErr (List ℚ)
  | [] => .ok []
  | x :: rest =>
    match pyToFloat x with
    | .error e => .error e
    | .ok q =>
      match toVecElems rest with
      | .error e => .error e
      | .ok qs => .ok (q :: qs)

/-- `np.array(value, dtype=np.float32)` flattened to a numeric vector: lists
convert element-wise (numpy parses numeric strings and raises
`OverflowError` on out-of-range ints); non-list operands fail conversion or
the subsequent `len()` with a caught error kind. -/
def toVec : PyValue → Except PyErr (List ℚ)
  | .vList xs => toVecElems xs
  | _ => .error .typeError

/-- `max(vector_min_sample_size, int(vector_len * sample_ratio))`. -/
def sampleSize (cfg : ToleranceConfig) (n : Nat) : Int :=
  max cfg.vector_min_sample_size (ratTrunc ((n : ℚ) * cfg.vector_sample_rate))

/-- `np.linspace(0, n - 1, m, dtype=int)` for `0 ≤ m < n`: `m` evenly spaced
points from `0` to `n - 1` inclusive, truncated to integers. -/
def linspaceIdx (n m : Nat) : List Nat :=
  if m = 1 then [0]
  else (List.range m).map
    (fun (k : Nat) => (ratTrunc ((k : ℚ) * ((n : ℚ) - 1) / ((m : ℚ) - 1))).toNat)

/-- The subsampling index plan: a function of the vector length and the
configuration alone, so two equal-length vectors are always subsampled at
identical indices. -/
def samplePlan (cfg : ToleranceConfig) (n : Nat) : List Nat :=
  linspaceIdx n (sampleSize cfg n).toNat

/-- `VectorComparator._sample_vector` on the converted vector: full vector
when the sampling rate is ≥ 1, the length is at most the minimum sample
size, or the computed sample size covers the vector; otherwise the
evenly-spaced subsample (numpy raises `ValueError` for a negative sample
count). -/
def sampleVector (cfg : ToleranceConfig) (xs : List ℚ) : Except PyErr (List ℚ) :=
  if 1 ≤ cfg.vector_sample_rate ∨ (xs.length : Int) ≤ cfg.vector_min_sample_size then
    .ok xs
  else if (xs.length : Int) ≤ sampleSize cfg xs.length then .ok xs
  else if sampleSize cfg xs.length < 0 then .error .valueError
  else .ok ((samplePlan cfg xs.length).map (fun i => xs.getD i 0))

/-- Conversion followed by sampling of one operand. -/
def sampleOperand (cfg : ToleranceConfig) (v : PyValue) : Except PyErr (List ℚ) :=
  match toVec v with
  | .error e => .error e
  | .ok xs => sampleVector cfg xs

/-- `np.allclose(vec1, vec2, atol, rtol)`:
every component satisfies `|a - b| ≤ atol + rtol * |b|`. -/
def allclose (cfg : ToleranceConfig) (a b : List ℚ) : Bool :=
  (a.zip b).all (fun p =>
    decide (|p.1 - p.2| ≤
      cfg.vector_absolute_tolerance + cfg.vector_relative_tolerance * |p.2|))

/-- `VectorComparator.compare`: `None` handling, conversion and sampling of
both operands (caught conversion failures fall back to string equality of
the raw values), length check, then vectorized tolerance comparison. -/
def compare (cfg : ToleranceConfig) (v1 v2 : PyValue) : Except PyErr Bool :=
  if v1.isNone && v2.isNone then .ok true
  else if v1.isNone || v2.isNone then .ok false
  else
    match sampleOperand cfg v1 with
    | .error e => if caughtVT e then .ok (pyStr v1 == pyStr v2) else .error e
    | .ok a =>
      match sampleOperand cfg v2 with
      | .error e => if caughtVT e then .ok (pyStr v1 == pyStr v2) else .error e
      | .ok b => if a.length ≠ b.length then .ok false else .ok (allclose cfg a b)

end VectorComparator

namespace ArrayComparator

/-- Python `list(value)`: lists pass through, strings burst into their
characters, dicts yield their key list, scalars raise `TypeError`. -/
def toPyList : PyValue → Except PyErr (List PyValue)
  | .vList xs => .ok xs
  | .vStr s => .ok (s.data.map (fun c => .vStr (String.singleton c)))
  | .vDict xs => .ok (xs.map (fun kv => .vStr kv.1))
  | _ => .error .typeError

/-- The nested element comparator: a numeric comparator for FLOAT/DOUBLE
element types, the string comparator otherwise. -/
def elementCompare (cfg : ToleranceConfig) (elementType : String)
    (e1 e2 : PyValue) : Except PyErr Bool :=
  if elementType = "FLOAT" || elementType = "DOUBLE" then
    NumericComparator.compare cfg (NumericComparator.isIntegerType elementType) e1 e2
  else .ok (StringComparator.compare cfg e1 e2)

/-- The element loop of `ArrayComparator.compare` (`zip(..., strict=False)`
stops at the shorter list; lengths are checked equal beforehand). -/
def compareElems (cfg : ToleranceConfig) (elementType : String) :
    List PyValue → List PyValue → Except PyErr Bool
  | [], _ => .ok true
  | _, [] => .ok true
  | a :: as, b :: bs =>
    match elementCompare cfg elementType a b with
    | .error e => .error e
    | .ok true => compareElems cfg elementType as bs
    | .ok false => .ok false

/-- `ArrayComparator.compare`: `None` handling, list conversion, length
check, element-wise comparison; caught failures fall back to string
equality of the raw values. -/
def compare (cfg : ToleranceConfig) (elementType : String) (v1 v2 : PyValue) :
    Except PyErr Bool :=
  if v1.isNone && v2.isNone then .ok true
  else if v1.isNone || v2.isNone then .ok false
  else
    match toPyList v1 with
    | .error e => if caughtVT e then .ok (pyStr v1 == pyStr v2) else .error e
    | .ok l1 =>
      match toPyList v2 with
      | .error e => if caughtVT e then .ok (pyStr v1 == pyStr v2) else .error e
      | .ok l2 =>
        if l1.length ≠ l2.length then .ok false
        else
          match compareElems cfg elementType l1 l2 with
          | .error e => if caughtVT e then .ok (pyStr v1 == pyStr v2) else .error e
          | .ok b => .ok b

end ArrayComparator

namespace PyJson

/-- Skip JSON whitespace. -/
def skipWs : List Char → List Char
  | c :: cs => if c = ' ' || c = '\t' || c = '\n' || c = '\r' then skipWs cs else c :: cs
  | [] => []

/-- Consume a JSON string body up to the closing quote (escape sequences are
outside the modelled subset). -/
def takeStr : List Char → Option (String × List Char)
  | [] => none
  | c :: cs =>
    if c = '"' then some ("", cs)
    else
      match takeStr cs with
      | some (s, rest) => some (String.singleton c ++ s, rest)
      | none => none

/-- Parse a JSON number (optional minus, digits, optional fraction; the
exponent form is outside the modelled subset). -/
def parseJsonNumber (cs : List Char) : Option (PyValue × List Char) :=
  let neg := match cs with
    | '-' :: _ => true
    | _ => false
  let cs1 := match cs with
    | '-' :: rest => rest
    | _ => cs
  let ip := cs1.takeWhile Char.isDigit
  if ip.isEmpty then none
  else
    match digitsToNat 0 ip with
    | none => none
    | some i =>
      match cs1.dropWhile Char.isDigit with
      | '.' :: cs3 =>
        let fp := cs3.takeWhile Char.isDigit
        if fp.isEmpty then none
        else
          match digitsToNat 0 fp with
          | none => none
          | some f =>
            let q : ℚ := (i : ℚ) + (f : ℚ) / ((10 : ℚ) ^ fp.length)
            some (.vFloat (if neg then -q else q), cs3.dropWhile Char.isDigit)
      | cs2 => some (.vInt (if neg then -(i : Int) else (i : Int)), cs2)

/-- Insert-or-replace into a dict association list: an existing key keeps
its position and takes the new value, exactly how a Python dict absorbs a
duplicate JSON object key (last value wins). -/
def upsertD (d : List (String × PyValue)) (k : String) (v : PyValue) :
    List (String × PyValue) :=
  match d with
  | [] => [(k, v)]
  | (k2, v2) :: rest => if k2 = k then (k2, v) :: rest else (k2, v2) :: upsertD rest k v

mutual
/-- Recursive-descent JSON value parser (fuel-bounded), the model of
`json.loads` on the subset this system serializes. -/
def parseJsonValue : Nat → List Char → Option (PyValue × List Char)
  | 0, _ => none
  | fuel + 1, cs =>
    match skipWs cs with
    | [] => none
    | c :: rest =>
      if c = 'n' then
        match rest with
        | 'u' :: 'l' :: 'l' :: r => some (.vNone, r)
        | _ => none
      else if c = 't' then
        match rest with
        | 'r' :: 'u' :: 'e' :: r => some (.vBool true, r)
        | _ => none
      else if c = 'f' then
        match rest with
        | 'a' :: 'l' :: 's' :: 'e' :: r => some (.vBool false, r)
        | _ => none
      else if c = '"' then (takeStr rest).map (fun p => (.vStr p.1, p.2))
      else if c = '[' then
        match skipWs rest with
        | ']' :: r => some (.vList [], r)
        | r2 => (parseJsonElems fuel r2).map (fun p => (.vList p.1, p.2))
      else if c = '\x7b' then
        match skipWs rest with
        | '\x7d' :: r => some (.vDict [], r)
        | r2 => (parseJsonMembers fuel [] r2).map (fun p => (.vDict p.1, p.2))
      else parseJsonNumber (c :: rest)

/-- Parse one or more comma-separated array elements up to `]`. -/
def parseJsonElems : Nat → List Char → Option (List PyValue × List Char)
  | 0, _ => none
  | fuel + 1, cs =>
    match parseJsonValue fuel cs with
    | none => none
    | some (v, r) =>
      match skipWs r with
      | ',' :: r2 => (parseJsonElems fuel r2).map (fun p => (v :: p.1, p.2))
      | ']' :: r2 => some ([v], r2)
      | _ => none

/-- Parse one or more comma-separated object members up to the closing
brace, accumulating into a dict with duplicate keys absorbed by `upsertD`. -/
def parseJsonMembers : Nat → List (String × PyValue) → List Char →
    Option (List (String × PyValue) × List Char)
  | 0, _, _ => none
  | fuel + 1, acc, cs =>
    match skipWs cs with
    | '"' :: r =>
      match takeStr r with
      | none => none
      | some (k, r2) =>
        match skipWs r2 with
        | ':' :: r3 =>
          match parseJsonValue fuel r3 with
          | none => none
          | some (v, r4) =>
            match skipWs r4 with
            | ',' :: r5 => parseJsonMembers fuel (upsertD acc k v) r5
            | '\x7d' :: r5 => some (upsertD acc k v, r5)
            | _ => none
        | _ => none
    | _ => none
end

mutual
/-- Canonicalize a parsed value: nested dicts are rebuilt by `upsertD`, so
every dict in the result has duplicate-free keys, mirroring that
`json.loads` can only produce genuine Python dicts. -/
def canonV : PyValue → PyValue
  | .vList xs => .vList (canonList xs)
  | .vDict xs => .vDict (canonDict [] xs)
  | v => v
termination_by v => sizeOf v

/-- `canonV` over list elements. -/
def canonList : List PyValue → List PyValue
  | [] => []
  | x :: xs => canonV x :: canonList xs
termination_by xs => sizeOf xs

/-- Rebuild a dict association list by repeated `upsertD` of canonicalized
values. -/
def canonDict (acc : List (String × PyValue)) :
    List (String × PyValue) → List (String × PyValue)
  | [] => acc
  | (k, v) :: rest => canonDict (upsertD acc k (canonV v)) rest
termination_by xs => sizeOf xs
end

end PyJson

namespace JSONComparator

/-- `JSONComparator._normalize_json`: a string operand is replaced by its
parse when it is a complete JSON document, otherwise kept as the raw
string. -/
def normalizeJson (v : PyValue) : PyValue :=
  match v with
  | .vStr s =>
    match PyJson.parseJsonValue (s.length + 1) s.data with
    | some (j, rest) => if (PyJson.skipWs rest).isEmpty then PyJson.canonV j else .vStr s
    | none => .vStr s
  | _ => v

/-- The runtime type tag, for the `type(obj1) is not type(obj2)` check. -/
inductive PyTy where
  | tNone
  | tBool
  | tInt
  | tFloat
  | tStr
  | tList
  | tDict
deriving DecidableEq

/-- `type(x)` of an embedded value. -/
def pyTy : PyValue → PyTy
  | .vNone => .tNone
  | .vBool _ => .tBool
  | .vInt _ => .tInt
  | .vFloat _ => .tFloat
  | .vStr _ => .tStr
  | .vList _ => .tList
  | .vDict _ => .tDict

/-- `isinstance(x, (int, float))` — Python bools are ints. -/
def isNum : PyValue → Bool
  | .vBool _ => true
  | .vInt _ => true
  | .vFloat _ => true
  | _ => false

/-- `not isinstance(x, (dict, list))`. -/
def notContainer : PyValue → Bool
  | .vList _ => false
  | .vDict _ => false
  | _ => true

/-- `set(keys1) == set(keys2)`. -/
def keySetEq (a b : List String) : Bool :=
  a.all b.contains && b.all a.contains

/-- `sorted(strings)` by the lexicographic string order. -/
def sortStrs (xs : List String) : List String :=
  xs.mergeSort (fun a b => decide (a ≤ b))

/-- Helper for `lookupD`-recursion termination: a looked-up value lives
inside the list. -/
theorem lookupD_sizeOf {k : String} {bs : List (String × PyValue)} {w : PyValue}
    (h : lookupD k bs = some w) : sizeOf w < sizeOf bs := by
  induction bs with
  | nil => simp [lookupD] at h
  | cons hd tl ih =>
    obtain ⟨k2, v⟩ := hd
    by_cases hk : k2 = k
    · simp [lookupD, hk] at h
      subst h
      simp
      omega
    · simp [lookupD, hk] at h
      have := ih h
      simp
      omega

mutual
/-- `JSONComparator._compare_json_recursive`: a type mismatch attempts
numeric coercion (catching ValueError/TypeError) before failing; dicts
require equal key sets and recursively equal values; lists require equal
length and compare as sorted string projections when order is ignored and
all elements are primitive, positionally otherwise; numbers (including
bools) compare by `math.isclose` (an out-of-range int propagates
`OverflowError`); remaining values by Python equality. -/
def jsonRec (cfg : ToleranceConfig) (o1 o2 : PyValue) : Except PyErr Bool :=
  if pyTy o1 ≠ pyTy o2 then
    if !cfg.json_strict_type && isNum o1 && isNum o2 then
      match pyToFloat o1 with
      | .error e => if caughtVT e then .ok false else .error e
      | .ok a =>
        match pyToFloat o2 with
        | .error e => if caughtVT e then .ok false else .error e
        | .ok b =>
            .ok (mathIsclose a b cfg.float_relative_tolerance
              cfg.float_absolute_tolerance)
    else .ok false
  else
    match o1, o2 with
    | .vDict d1, .vDict d2 =>
      if keySetEq (d1.map Prod.fst) (d2.map Prod.fst) then jsonRecPairs cfg d1 d2
      else .ok false
    | .vList l1, .vList l2 =>
      if l1.length ≠ l2.length then .ok false
      else if cfg.json_ignore_order && l1.all notContainer && l2.all notContainer then
        .ok (sortStrs (l1.map pyStr) == sortStrs (l2.map pyStr))
      else jsonRecList cfg l1 l2
    | .vBool a, .vBool b =>
      .ok (mathIsclose (if a then 1 else 0) (if b then 1 else 0)
        cfg.float_relative_tolerance cfg.float_absolute_tolerance)
    | .vInt a, .vInt b =>
      match pyToFloat (.vInt a) with
      | .error e => .error e
      | .ok x =>
        match pyToFloat (.vInt b) with
        | .error e => .error e
        | .ok y =>
            .ok (mathIsclose x y cfg.float_relative_tolerance
              cfg.float_absolute_tolerance)
    | .vFloat a, .vFloat b =>
        .ok (mathIsclose a b cfg.float_relative_tolerance
          cfg.float_absolute_tolerance)
    | o1, o2 => .ok (pyEq o1 o2)

termination_by sizeOf o1 + sizeOf o2
decreasing_by
  all_goals simp_wf
  all_goals try simp
  all_goals omega

/-- Positional recursive list comparison (`all` over `zip`, short-circuit). -/
def jsonRecList (cfg : ToleranceConfig) :
    List PyValue → List PyValue → Except PyErr Bool
  | [], _ => .ok true
  | _, [] => .ok true
  | a :: as, b :: bs =>
    match jsonRec cfg a b with
    | .error e => .error e
    | .ok true => jsonRecList cfg as bs
    | .ok false => .ok false
termination_by l1 l2 => sizeOf l1 + sizeOf l2
decreasing_by
  all_goals simp_wf
  all_goals try simp
  all_goals omega

/-- Key-by-key dict comparison: each key of the first dict is looked up in
the second (the key sets were checked equal beforehand, so a missed lookup
only arises in unreachable states and yields inequality). -/
def jsonRecPairs (cfg : ToleranceConfig) :
    List (String × PyValue) → List (String × PyValue) → Except PyErr Bool
  | [], _ => .ok true
  | (k, v) :: as, bs =>
    match h : lookupD k bs with
    | none => .ok false
    | some w =>
      match jsonRec cfg v w with
      | .error e => .error e
      | .ok true => jsonRecPairs cfg as bs
      | .ok false => .ok false
termination_by as bs => sizeOf as + sizeOf bs
decreasing_by
  all_goals simp_wf
  all_goals try simp
  all_goals try (have hb := lookupD_sizeOf h)
  all_goals omega
end

/-- `JSONComparator.compare`: `None` handling, normalization, recursive
comparison; any exception (the catch-all in the source) falls back to
string equality of the raw values.  Total. -/
def compare (cfg : ToleranceConfig) (v1 v2 : PyValue) : Bool :=
  if v1.isNone && v2.isNone then true
  else if v1.isNone || v2.isNone then false
  else
    match jsonRec cfg (normalizeJson v1) (normalizeJson v2) with
    | .ok b => b
    | .error _ => pyStr v1 == pyStr v2

end JSONComparator

namespace DefaultValueAwareComparator

/-- `DefaultValueAwareComparator._normalize_value`: a `None` becomes the
default when `null_equals_default` is on and a default exists; a non-null
value equal to the default is pinned to the canonical default when
`treat_missing_as_default` is on.  The Python attribute `default_value` is
`None` exactly when the schema declares no (non-null) default. -/
def normalizeValue (cfg : ToleranceConfig) (dflt v : PyValue) : PyValue :=
  if v.isNone then
    if cfg.null_equals_default && !dflt.isNone then dflt else .vNone
  else if cfg.treat_missing_as_default && !dflt.isNone && pyEq v dflt then dflt
  else v

/-- `DefaultValueAwareComparator.compare`: normalization, the
`ignore_default_value_diffs` shortcuts, the null shortcuts with nullable
policy, then delegation to the wrapped base comparator. -/
def compare (cfg : ToleranceConfig) (dflt : PyValue) (nullable : Bool)
    (base : PyValue → PyValue → Except PyErr Bool) (v1 v2 : PyValue) :
    Except PyErr Bool :=
  let n1 := normalizeValue cfg dflt v1
  let n2 := normalizeValue cfg dflt v2
  if cfg.ignore_default_value_diffs && !dflt.isNone &&
      ((pyEq n1 dflt && n2.isNone) || (n1.isNone && pyEq n2 dflt)) then .ok true
  else if cfg.ignore_default_value_diffs && !dflt.isNone &&
      pyEq n1 dflt && pyEq n2 dflt then .ok true
  else if n1.isNone && n2.isNone then .ok true
  else if n1.isNone || n2.isNone then
    if nullable then
      if cfg.null_equals_missing then .ok false
      else if cfg.null_equals_default && !dflt.isNone then
        .ok (pyEq (if n2.isNone then n1 else n2) dflt)
      else .ok false
    else .ok false
  else base n1 n2

end DefaultValueAwareComparator

namespace DynamicFieldComparator

/-- `set(keys1) | set(keys2)`, enumerated first-dict-first. -/
def unionKeys (a b : List String) : List String :=
  a ++ b.filter (fun k => !a.contains k)

/-- `DynamicFieldComparator.compare_dynamic_fields` on the two `$meta`
values: disabled handling short-circuits to equal; both `None` are equal;
exactly one `None` reports the keys of `meta1 or meta2` — Python truthiness,
so an empty present map selects `None` and `None.keys()` raises
`AttributeError`, and the keys reported in this branch carry no `$meta.`
tag; with both maps present, the key union is compared value by value with
the JSON comparator and differing keys are reported with the `$meta.` tag. -/
def compareDynamicFields (cfg : ToleranceConfig) (m1 m2 : PyValue) :
    Except PyErr (Bool × List String) :=
  if !cfg.handle_dynamic_fields then .ok (true, [])
  else if m1.isNone && m2.isNone then .ok (true, [])
  else if m1.isNone || m2.isNone then
    match (if pyTruthy m1 then m1 else m2) with
    | .vDict d => .ok (false, d.map Prod.fst)
    | _ => .error .attributeError
  else
    match m1, m2 with
    | .vDict d1, .vDict d2 =>
      let ks := unionKeys (d1.map Prod.fst) (d2.map Prod.fst)
      let diffs := (ks.filter (fun k =>
        !JSONComparator.compare cfg ((lookupD k d1).getD .vNone)
          ((lookupD k d2).getD .vNone))).map (fun k => "$meta." ++ k)
      .ok (diffs.isEmpty, diffs)
    | _, _ => .error .attributeError

end DynamicFieldComparator

/-- Schema descriptor entry of `field_schemas`: `element_type` /
`default_value` are `some` exactly when the corresponding dict key is
present (a present `default_value` may still be an explicit `None`), and
`nullable` defaults to `False`. -/
structure FieldSchema where
  element_type : Option String := none
  default_value : Option PyValue := none
  nullable : Bool := false

/-- `field_categories`: the category lists read by the comparator builder
(`dict.get(..., [])` on absent keys). -/
structure FieldCategories where
  json_fields : List String := []
  float_vector_fields : List String := []
  array_fields : List String := []

/-- Association-list lookup for schema maps. -/
def lookupS (k : String) : List (String × FieldSchema) → Option FieldSchema
  | [] => none
  | (k2, v) :: rest => if k2 = k then some v else lookupS k rest

/-- The closed set of base field-comparator kinds the builder can select. -/
inductive CompKind where
  | jsonK
  | vectorK
  | arrayK (elementType : String)
  | numericK (dataType : String)
  | booleanK
  | stringK
deriving DecidableEq, Repr

/-- A built per-field comparator: the base kind, optionally wrapped by the
default/null-aware wrapper with its field schema. -/
inductive BuiltComp where
  | base (k : CompKind)
  | wrapped (k : CompKind) (fs : FieldSchema)

/-- The base kind under the optional wrapper. -/
def BuiltComp.baseKind : BuiltComp → CompKind
  | .base k => k
  | .wrapped k _ => k

/-- Interpret a base comparator kind as its compare function. -/
def CompKind.interp (cfg : ToleranceConfig) : CompKind → PyValue → PyValue → Except PyErr Bool
  | .jsonK => fun a b => .ok (JSONComparator.compare cfg a b)
  | .vectorK => VectorComparator.compare cfg
  | .arrayK et => ArrayComparator.compare cfg et
  | .numericK dt => NumericComparator.compare cfg (NumericComparator.isIntegerType dt)
  | .booleanK => fun a b => .ok (BooleanComparator.compare a b)
  | .stringK => fun a b => .ok (StringComparator.compare cfg a b)

/-- Interpret a built comparator (applying the wrapper where present). -/
def BuiltComp.interp (cfg : ToleranceConfig) : BuiltComp → PyValue → PyValue → Except PyErr Bool
  | .base k => k.interp cfg
  | .wrapped k fs =>
      DefaultValueAwareComparator.compare cfg (fs.default_value.getD .vNone)
        fs.nullable (k.interp cfg)

/-- `HighPerformanceComparator._build_field_comparators`: category routing
first (json, float-vector, array — the array element type read from the
schema with default `VARCHAR`), then data-type routing (numeric types,
`BOOL`, and a string comparator for `VARCHAR` and anything else), then the
default/null-aware wrapping whenever schema handling is on and the field's
(nonempty) schema declares a default or nullability.  Total: construction
never raises. -/
def buildOneComparator (cfg : ToleranceConfig) (cats : FieldCategories)
    (schemas : List (String × FieldSchema)) (ft : String × String) :
    String × BuiltComp :=
  let f := ft.1
  let dt := ft.2
  let baseK : CompKind :=
    if cats.json_fields.contains f then .jsonK
    else if cats.float_vector_fields.contains f then .vectorK
    else if cats.array_fields.contains f then
      .arrayK (((lookupS f schemas).getD {}).element_type.getD "VARCHAR")
    else if dt = "FLOAT" || dt = "DOUBLE" || dt = "INT8" || dt = "INT16" ||
        dt = "INT32" || dt = "INT64" then .numericK dt
    else if dt = "BOOL" then .booleanK
    else .stringK
  match lookupS f schemas with
  | some fs =>
    if (cfg.handle_default_values || cfg.handle_nullable_fields) &&
        (fs.default_value.isSome || fs.nullable) then (f, .wrapped baseK fs)
    else (f, .base baseK)
  | none => (f, .base baseK)

/-- The builder, mapped over the declared field types. -/
def buildFieldComparators (cfg : ToleranceConfig)
    (field_types : List (String × String)) (cats : FieldCategories)
    (schemas : List (String × FieldSchema)) : List (String × BuiltComp) :=
  field_types.map (buildOneComparator cfg cats schemas)

/-- Lookup among the built comparators (`field_name in self.field_comparators`). -/
def lookupC (k : String) : List (String × BuiltComp) → Option BuiltComp
  | [] => none
  | (k2, v) :: rest => if k2 = k then some v else lookupC k rest

/-- A record: field name to value, `record.get(f)` defaulting to `None`. -/
def Record := List (String × PyValue)

/-- `record.get(field_name)`. -/
def recGet (r : Record) (f : String) : PyValue :=
  (lookupD f r).getD .vNone

/-- The record field names. -/
def recKeys (r : Record) : List String :=
  (fun l => l.map Prod.fst) r

/-- The per-field loop of `compare_records`: `$meta` is skipped, fields
without a registered comparator fall back to direct Python equality, and
registered comparators contribute their verdict (exceptions propagate). -/
def crLoop (cfg : ToleranceConfig) (comps : List (String × BuiltComp))
    (r1 r2 : Record) : List String → Except PyErr (List String)
  | [] => .ok []
  | f :: rest =>
    if f = "$meta" then crLoop cfg comps r1 r2 rest
    else
      match lookupC f comps with
      | none =>
        match crLoop cfg comps r1 r2 rest with
        | .error e => .error e
        | .ok ds => .ok (if pyEq (recGet r1 f) (recGet r2 f) then ds else f :: ds)
      | some c =>
        match c.interp cfg (recGet r1 f) (recGet r2 f) with
        | .error e => .error e
        | .ok b =>
          match crLoop cfg comps r1 r2 rest with
          | .error e => .error e
          | .ok ds => .ok (if b then ds else f :: ds)

/-- The comparator state assembled by `HighPerformanceComparator.__init__`
(the pre-compiled field comparators). -/
structure HPComparator where
  cfg : ToleranceConfig
  comps : List (String × BuiltComp)

/-- `HighPerformanceComparator(...)`: pre-compile the field comparators. -/
def mkHPComparator (cfg : ToleranceConfig) (field_types : List (String × String))
    (cats : FieldCategories) (schemas : List (String × FieldSchema)) : HPComparator :=
  ⟨cfg, buildFieldComparators cfg field_types cats schemas⟩

/-- `HighPerformanceComparator.compare_records`: the compared field set is
the given one or the key intersection, the per-field loop runs, then the
dynamic `$meta` maps are compared separately when enabled and their
differences appended; the verdict is emptiness of the difference list. -/
def compare_records (C : HPComparator) (r1 r2 : Record)
    (fieldsToCompare : Option (List String)) : Except PyErr (Bool × List String) :=
  let fields := fieldsToCompare.getD ((recKeys r1).filter (recKeys r2).contains)
  match crLoop C.cfg C.comps r1 r2 fields with
  | .error e => .error e
  | .ok ds =>
    if C.cfg.handle_dynamic_fields then
      match DynamicFieldComparator.compareDynamicFields C.cfg
          (recGet r1 "$meta") (recGet r2 "$meta") with
      | .error e => .error e
      | .ok (isEq, metaDs) =>
        let all := ds ++ (if isEq then [] else metaDs)
        .ok (all.isEmpty, all)
    else .ok (ds.isEmpty, ds)

/-- A DataFrame: named columns and rows keyed by the index (the primary-key
values), each row holding one value per column. -/
structure DataFrame where
  cols : List String
  rows : List (Int × List PyValue)

/-- The DataFrame index. -/
def DataFrame.index (df : DataFrame) : List Int :=
  df.rows.map Prod.fst

/-- Integer-keyed row lookup. -/
def lookupRow (k : Int) : List (Int × List PyValue) → Option (List PyValue)
  | [] => none
  | (k2, v) :: rest => if k2 = k then some v else lookupRow k rest

/-- `df.loc[pk].to_dict()`: the row as a record of column name to value. -/
def rowRecord (df : DataFrame) (pk : Int) : Record :=
  df.cols.zip (((lookupRow pk df.rows).getD []))

/-- `df1.index.intersection(df2.index)` (left order). -/
def commonIndex (df1 df2 : DataFrame) : List Int :=
  df1.index.filter df2.index.contains

/-- `set(df1.columns) & set(df2.columns)` (left order). -/
def commonCols (df1 df2 : DataFrame) : List String :=
  df1.cols.filter df2.cols.contains

/-- One entry of the diff list of `compare_dataframes`: the primary key, the
differing field names, and each side's values for exactly those fields. -/
structure DiffRecord where
  primary_key : Int
  different_fields : List String
  milvus_values : List (String × PyValue)
  pg_values : List (String × PyValue)

/-- The diff entry built for one mismatching key. -/
def mkDiff (pk : Int) (flds : List String) (r1 r2 : Record) : DiffRecord :=
  ⟨pk, flds, flds.map (fun f => (f, recGet r1 f)), flds.map (fun f => (f, recGet r2 f))⟩

/-- The row loop of `compare_dataframes`. -/
def cdLoop (C : HPComparator) (df1 df2 : DataFrame) (ccols : List String) :
    List Int → Except PyErr (List DiffRecord)
  | [] => .ok []
  | pk :: rest =>
    let r1 := rowRecord df1 pk
    let r2 := rowRecord df2 pk
    match compare_records C r1 r2 (some ccols) with
    | .error e => .error e
    | .ok (isEq, flds) =>
      match cdLoop C df1 df2 ccols rest with
      | .error e => .error e
      | .ok ds => .ok (if isEq then ds else mkDiff pk flds r1 r2 :: ds)

/-- `HighPerformanceComparator.compare_dataframes`: rows aligned on the
index intersection, columns restricted to the column intersection, one diff
entry per mismatching key; the `primary_key` argument is accepted but never
read. -/
def compare_dataframes (C : HPComparator) (df1 df2 : DataFrame)
    (primaryKey : String) : Except PyErr (Bool × List DiffRecord) :=
  match cdLoop C df1 df2 (commonCols df1 df2) (commonIndex df1 df2) with
  | .error e => .error e
  | .ok ds => .ok (ds.isEmpty, ds)

namespace ThreeWay

/-- Modelled from the spec: the Three-Way Validator
(`three_way_pk_validation`) is not among the given sources — only its tests
and demo callers are — so per spec §4.6 each key's presence is probed in the
vector store (milvus), the relational store (pg) and the ledger (lmdb), and
the state agreed on by at least two of the three is the adjudicated correct
state. -/
def majorityState (m p l : Bool) : Bool :=
  (m && p) || (m && l) || (p && l)

/-- Modelled from the spec: the name of an adjudicated state. -/
def stateName (b : Bool) : String :=
  if b then "exists" else "deleted"

/-- Modelled from the spec: the per-key detail record of a validation run. -/
structure Detail where
  pk : Int
  in_milvus : Bool
  in_pg : Bool
  in_lmdb : Bool
  correct_state : String

/-- Modelled from the spec: the aggregate result of a validation run. -/
structure Summary where
  total_pks : Nat
  consistent_pks : Nat
  inconsistent_pks : Nat
  milvus_errors : List Int
  pg_errors : List Int
  lmdb_errors : List Int
  details : List Detail

/-- Modelled from the spec: one key is consistent when all three sources
agree. -/
def consistentKey (e : Int × Bool × Bool × Bool) : Bool :=
  e.2.1 == e.2.2.1 && e.2.2.1 == e.2.2.2

/-- Modelled from the spec: `three_way_pk_validation` over the presence
probes of a key set — counts, per-source error-key lists naming exactly the
dissenting source(s) of each inconsistent key, and a detail record per
inconsistent key carrying the presence booleans and the majority-adjudicated
state. -/
def threeWayValidate (entries : List (Int × Bool × Bool × Bool)) : Summary :=
  let inconsistent := entries.filter (fun e => !consistentKey e)
  { total_pks := entries.length
    consistent_pks := (entries.filter consistentKey).length
    inconsistent_pks := inconsistent.length
    milvus_errors := (inconsistent.filter
      (fun e => e.2.1 != majorityState e.2.1 e.2.2.1 e.2.2.2)).map Prod.fst
    pg_errors := (inconsistent.filter
      (fun e => e.2.2.1 != majorityState e.2.1 e.2.2.1 e.2.2.2)).map Prod.fst
    lmdb_errors := (inconsistent.filter
      (fun e => e.2.2.2 != majorityState e.2.1 e.2.2.1 e.2.2.2)).map Prod.fst
    details := inconsistent.map (fun e =>
      ⟨e.1, e.2.1, e.2.2.1, e.2.2.2,
        stateName (majorityState e.2.1 e.2.2.1 e.2.2.2)⟩) }

end ThreeWay

namespace Fixtures

/-- A comparator over a single `INT64` field, for concrete table examples. -/
def intCmp : HPComparator := mkHPComparator defaultConfig [("age", "INT64")] {} []

/-- A one-row table carrying a `$meta` column with a dynamic attribute. -/
def dfMeta1 : DataFrame := ⟨["age", "$meta"], [(1, [.vInt 30, .vDict [("x", .vInt 1)]])]⟩

/-- The matching one-row table without the `$meta` column. -/
def dfMeta2 : DataFrame := ⟨["age"], [(1, [.vInt 30])]⟩

/-- Two-row table A of the single-field-diff scenario. -/
def dfAgeA : DataFrame := ⟨["age"], [(1, [.vInt 20]), (3, [.vInt 31])]⟩

/-- Two-row table B of the single-field-diff scenario: only row 3's age
differs. -/
def dfAgeB : DataFrame := ⟨["age"], [(1, [.vInt 20]), (3, [.vInt 30])]⟩

/-- A comparator with numeric, string and defaulted-float fields. -/
def wideCmp : HPComparator :=
  mkHPComparator defaultConfig
    [("id", "INT64"), ("name", "VARCHAR"), ("score", "DOUBLE")] {}
    [("score", { default_value := some (.vFloat 0) })]

/-- A record exercising scalar fields and a dynamic side-map. -/
def sampleRecord : Record :=
  [("id", .vInt 3), ("name", .vStr "abc"), ("score", .vFloat (7 / 2)),
    ("$meta", .vDict [("x", .vInt 1)])]

end Fixtures

/-- Nonnegative comparison tolerances (the source defaults are all
positive). -/
def nonnegTol (cfg : ToleranceConfig) : Prop :=
  0 ≤ cfg.float_absolute_tolerance ∧ 0 ≤ cfg.float_relative_tolerance ∧
  0 ≤ cfg.vector_absolute_tolerance ∧ 0 ≤ cfg.vector_relative_tolerance

/-- Is the value a dict? -/
def isDictV : PyValue → Bool
  | .vDict _ => true
  | _ => false

/-- A well-formed record: every value is well formed, and the reserved
`$meta` entry, when present, is a dynamic side-map (a dict). -/
def wfRecord (r : Record) : Bool :=
  (fun l : List (String × PyValue) => l.all (fun kv => wfV kv.2)) r &&
  ((recGet r "$meta").isNone || isDictV (recGet r "$meta"))

/-- Well-formed schema table: every declared default value is well formed. -/
def wfSchemas (schemas : List (String × FieldSchema)) : Bool :=
  schemas.all (fun s => wfV (s.2.default_value.getD .vNone))

/-- The default value carried by a built comparator is well formed (holds
trivially for unwrapped comparators). -/
def BuiltComp.wfDefault : BuiltComp → Bool
  | .base _ => true
  | .wrapped _ fs => wfV (fs.default_value.getD .vNone)

/-- C1 (spec-modelled): for every key whose three presence booleans are not
unanimous, the state agreed on by at least 2 of the 3 sources is the
adjudicated correct state, exactly the dissenting source(s) land in
milvus_errors / pg_errors / lmdb_errors, and — presence being two-valued —
a 1-1-1 split cannot occur at all, so the split-vote clause holds
vacuously. -/
theorem claim_C1_three_way_majority (pk : Int) (m p l : Bool)
    (h : ¬(m = p ∧ p = l)) :
    2 ≤ ([m, p, l].count (ThreeWay.majorityState m p l)) ∧
    (ThreeWay.threeWayValidate [(pk, m, p, l)]).total_pks = 1 ∧
    (ThreeWay.threeWayValidate [(pk, m, p, l)]).consistent_pks = 0 ∧
    (ThreeWay.threeWayValidate [(pk, m, p, l)]).inconsistent_pks = 1 ∧
    (ThreeWay.threeWayValidate [(pk, m, p, l)]).milvus_errors =
      (if m = ThreeWay.majorityState m p l then [] else [pk]) ∧
    (ThreeWay.threeWayValidate [(pk, m, p, l)]).pg_errors =
      (if p = ThreeWay.majorityState m p l then [] else [pk]) ∧
    (ThreeWay.threeWayValidate [(pk, m, p, l)]).lmdb_errors =
      (if l = ThreeWay.majorityState m p l then [] else [pk]) ∧
    (ThreeWay.threeWayValidate [(pk, m, p, l)]).details =
      [⟨pk, m, p, l, ThreeWay.stateName (ThreeWay.majorityState m p l)⟩] ∧
    ¬(m ≠ p ∧ p ≠ l ∧ m ≠ l) := by
  cases m <;> cases p <;> cases l
  · exact absurd ⟨rfl, rfl⟩ h
  · exact ⟨by decide, rfl, rfl, rfl, rfl, rfl, rfl, rfl, by decide⟩
  · exact ⟨by decide, rfl, rfl, rfl, rfl, rfl, rfl, rfl, by decide⟩
  · exact ⟨by decide, rfl, rfl, rfl, rfl, rfl, rfl, rfl, by decide⟩
  · exact ⟨by decide, rfl, rfl, rfl, rfl, rfl, rfl, rfl, by decide⟩
  · exact ⟨by decide, rfl, rfl, rfl, rfl, rfl, rfl, rfl, by decide⟩
  · exact ⟨by decide, rfl, rfl, rfl, rfl, rfl, rfl, rfl, by decide⟩
  · exact absurd ⟨rfl, rfl⟩ h

/-- Witness for C1 at the spec's example `(True, True, False)`: the
adjudicated state is "exists" and the ledger is the dissenting source. -/
theorem claim_C1_witness :
    ¬((true : Bool) = true ∧ (true : Bool) = false) ∧
    (ThreeWay.threeWayValidate [(5, true, true, false)]).lmdb_errors =
      (if false = ThreeWay.majorityState true true false then [] else [5]) ∧
    (ThreeWay.threeWayValidate [(5, true, true, false)]).details =
      [⟨5, true, true, false, ThreeWay.stateName (ThreeWay.majorityState true true false)⟩] :=
  ⟨by decide,
    (claim_C1_three_way_majority 5 true true false (by decide)).2.2.2.2.2.2.1,
    (claim_C1_three_way_majority 5 true true false (by decide)).2.2.2.2.2.2.2.1⟩

/-- C2: with nonnegative tolerances, a float-typed comparison accepts any
pair within the absolute tolerance, rejects any pair beyond the absolute
plus scaled relative tolerance, and an integer-typed comparison is exact
equality. -/
theorem claim_C2_numeric_tolerance (cfg : ToleranceConfig)
    (habs : 0 ≤ cfg.float_absolute_tolerance)
    (hrel : 0 ≤ cfg.float_relative_tolerance) (a b : ℚ) :
    (|a - b| ≤ cfg.float_absolute_tolerance →
      NumericComparator.compare cfg false (.vFloat a) (.vFloat b) = .ok true) ∧
    (cfg.float_absolute_tolerance +
        cfg.float_relative_tolerance * max |a| |b| < |a - b| →
      NumericComparator.compare cfg false (.vFloat a) (.vFloat b) = .ok false) ∧
    (∀ m n : Int,
      NumericComparator.compare cfg true (.vInt m) (.vInt n) = .ok (m == n)) := by
  have hmx : (0 : ℚ) ≤ max |a| |b| := le_trans (abs_nonneg a) (le_max_left _ _)
  have hrm : (0 : ℚ) ≤ cfg.float_relative_tolerance * max |a| |b| :=
    mul_nonneg hrel hmx
  have hcore : NumericComparator.compare cfg false (.vFloat a) (.vFloat b) =
      .ok (mathIsclose a b cfg.float_relative_tolerance
        cfg.float_absolute_tolerance) := rfl
  refine ⟨?_, ?_, fun m n => rfl⟩
  · intro hab
    rw [hcore]
    have : mathIsclose a b cfg.float_relative_tolerance
        cfg.float_absolute_tolerance = true := by
      simp only [mathIsclose, decide_eq_true_eq]
      exact le_trans hab (le_max_right _ _)
    rw [this]
  · intro hab
    rw [hcore]
    have : mathIsclose a b cfg.float_relative_tolerance
        cfg.float_absolute_tolerance = false := by
      simp only [mathIsclose, decide_eq_false_iff_not]
      intro hle
      have hmle : max (cfg.float_relative_tolerance * max |a| |b|)
          cfg.float_absolute_tolerance ≤
          cfg.float_absolute_tolerance +
            cfg.float_relative_tolerance * max |a| |b| :=
        max_le (by linarith) (by linarith)
      linarith
    rw [this]

/-- Witness for C2 at the default config and concrete operands. -/
theorem claim_C2_witness :
    (0 ≤ defaultConfig.float_absolute_tolerance) ∧
    (0 ≤ defaultConfig.float_relative_tolerance) ∧
    (|(1 : ℚ) - 1| ≤ defaultConfig.float_absolute_tolerance →
      NumericComparator.compare defaultConfig false (.vFloat 1) (.vFloat 1) =
        .ok true) ∧
    (∀ m n : Int,
      NumericComparator.compare defaultConfig true (.vInt m) (.vInt n) =
        .ok (m == n)) :=
  ⟨by simp [defaultConfig], by simp [defaultConfig],
    (claim_C2_numeric_tolerance defaultConfig (by simp [defaultConfig])
      (by simp [defaultConfig]) 1 1).1,
    (claim_C2_numeric_tolerance defaultConfig (by simp [defaultConfig])
      (by simp [defaultConfig]) 1 1).2.2⟩

/-- C8 (code bug): with exactly one side's dynamic map present, the
comparison reports the present map's keys WITHOUT the `$meta.` tag
(`(False, ["x"])`, not `["$meta.x"]`), and when the present map is empty the
Python-truthiness `meta1 or meta2` selects `None` and the call raises
`AttributeError` instead of returning a verdict (while `(None, dict()``)`
silently yields an unequal verdict with no reported keys). -/
theorem claim_C8_dynamic_one_sided :
    DynamicFieldComparator.compareDynamicFields defaultConfig
      (.vDict [("x", .vInt 1)]) .vNone = .ok (false, ["x"]) ∧
    DynamicFieldComparator.compareDynamicFields defaultConfig
      (.vDict []) .vNone = .error .attributeError ∧
    DynamicFieldComparator.compareDynamicFields defaultConfig
      .vNone (.vDict []) = .ok (false, []) :=
  ⟨rfl, rfl, rfl⟩

/-- C9 counterexample: constructing the comparator over a field of the
unknown semantic type `GEOMETRY` raises nothing — it returns normally, with
the field resolved to the string-equality comparator, contradicting the
claimed fail-fast construction error. -/
theorem claim_C9_counterexample :
    buildFieldComparators defaultConfig [("g", "GEOMETRY")] {} [] =
      [("g", .base .stringK)] := rfl

/-- The builder keeps each field's name. -/
theorem buildOne_fst (cfg : ToleranceConfig) (cats : FieldCategories)
    (schemas : List (String × FieldSchema)) (ft : String × String) :
    (buildOneComparator cfg cats schemas ft).1 = ft.1 := by
  simp only [buildOneComparator]
  split
  · split
    · rfl
    · rfl
  · rfl

/-- With every category and known data type ruled out, the builder selects
the string comparator as the base kind. -/
theorem buildOne_baseKind_string (cfg : ToleranceConfig) (cats : FieldCategories)
    (schemas : List (String × FieldSchema)) (f dt : String)
    (hjson : cats.json_fields.contains f = false)
    (hvec : cats.float_vector_fields.contains f = false)
    (harr : cats.array_fields.contains f = false)
    (h1 : dt ≠ "FLOAT") (h2 : dt ≠ "DOUBLE") (h3 : dt ≠ "INT8")
    (h4 : dt ≠ "INT16") (h5 : dt ≠ "INT32") (h6 : dt ≠ "INT64")
    (h7 : dt ≠ "BOOL") :
    ((buildOneComparator cfg cats schemas (f, dt)).2).baseKind = .stringK := by
  simp only [buildOneComparator, hjson, hvec, harr, h1, h2, h3, h4, h5, h6, h7]
  simp only [Bool.false_eq_true, if_false, decide_False, Bool.or_self, Bool.or_false]
  split
  · split
    · rfl
    · rfl
  · rfl

/-- C9 (amended): comparator construction never raises — a field whose
category/semantic type is unknown is resolved, at construction time, to the
string-equality fallback comparator (one built entry per declared field);
only omitting the required constructor arguments themselves fails, as a
language-level arity error outside this model. -/
theorem claim_C9_construction_fallback (cfg : ToleranceConfig)
    (fts : List (String × String)) (cats : FieldCategories)
    (schemas : List (String × FieldSchema)) (f dt : String)
    (hmem : (f, dt) ∈ fts)
    (hjson : cats.json_fields.contains f = false)
    (hvec : cats.float_vector_fields.contains f = false)
    (harr : cats.array_fields.contains f = false)
    (hdt : dt ∉ (["FLOAT", "DOUBLE", "INT8", "INT16", "INT32", "INT64",
      "BOOL"] : List String)) :
    (buildFieldComparators cfg fts cats schemas).length = fts.length ∧
    ∃ c : BuiltComp, (f, c) ∈ buildFieldComparators cfg fts cats schemas ∧
      c.baseKind = .stringK := by
  simp only [List.mem_cons, List.not_mem_nil, or_false, not_or] at hdt
  obtain ⟨h1, h2, h3, h4, h5, h6, h7⟩ := hdt
  refine ⟨by simp [buildFieldComparators], ?_⟩
  have hm := List.mem_map_of_mem (buildOneComparator cfg cats schemas) hmem
  have hk := buildOne_baseKind_string cfg cats schemas f dt hjson hvec harr
    h1 h2 h3 h4 h5 h6 h7
  refine ⟨(buildOneComparator cfg cats schemas (f, dt)).2, ?_, hk⟩
  have hfst : (buildOneComparator cfg cats schemas (f, dt)).1 = f :=
    buildOne_fst cfg cats schemas (f, dt)
  have hpair : (f, (buildOneComparator cfg cats schemas (f, dt)).2) =
      buildOneComparator cfg cats schemas (f, dt) :=
    Prod.ext_iff.mpr ⟨hfst.symm, rfl⟩
  rw [hpair]
  exact hm

/-- Witness for C9 at a concrete unknown type. -/
theorem claim_C9_witness :
    (("g", "GEOMETRY") ∈ ([("g", "GEOMETRY")] : List (String × String))) ∧
    (∃ c : BuiltComp,
      ("g", c) ∈ buildFieldComparators defaultConfig [("g", "GEOMETRY")] {} [] ∧
      c.baseKind = .stringK) :=
  ⟨by simp,
    (claim_C9_construction_fallback defaultConfig [("g", "GEOMETRY")] {} []
      "g" "GEOMETRY" (by simp) rfl rfl rfl (by decide)).2⟩

/-- Every diff entry produced by the row loop belongs to the scanned key
list. -/
theorem cdLoop_mem (C : HPComparator) (df1 df2 : DataFrame) (ccols : List String) :
    ∀ (pks : List Int) (ds : List DiffRecord), cdLoop C df1 df2 ccols pks = .ok ds →
      ∀ d ∈ ds, d.primary_key ∈ pks := by
  intro pks
  induction pks with
  | nil =>
    intro ds h d hd
    simp only [cdLoop] at h
    cases h
    simp at hd
  | cons pk rest ih =>
    intro ds h d hd
    simp only [cdLoop] at h
    cases hcr : compare_records C (rowRecord df1 pk) (rowRecord df2 pk)
        (some ccols) with
    | error e =>
      rw [hcr] at h
      exact absurd h (by simp)
    | ok pr =>
      obtain ⟨isEq, flds⟩ := pr
      rw [hcr] at h
      cases hcd : cdLoop C df1 df2 ccols rest with
      | error e =>
        rw [hcd] at h
        exact absurd h (by simp)
      | ok ds2 =>
        rw [hcd] at h
        simp only [Except.ok.injEq] at h
        subst h
        cases isEq with
        | true =>
          simp only [if_true] at hd
          exact List.mem_cons_of_mem pk (ih ds2 hcd d hd)
        | false =>
          simp only [Bool.false_eq_true, if_false] at hd
          rcases List.mem_cons.mp hd with hh | hh
          · subst hh
            exact List.mem_cons_self pk rest
          · exact List.mem_cons_of_mem pk (ih ds2 hcd d hh)

/-- C10: `compare_dataframes` never reads its `primary_key` argument — any
two argument strings give identical results — and the `primary_key` value
reported in each diff entry is a key of the DataFrame index intersection,
not of any named column. -/
theorem claim_C10_primary_key_inert (C : HPComparator) (df1 df2 : DataFrame)
    (p1 p2 : String) :
    compare_dataframes C df1 df2 p1 = compare_dataframes C df1 df2 p2 ∧
    (∀ (b : Bool) (ds : List DiffRecord),
      compare_dataframes C df1 df2 p1 = .ok (b, ds) →
      ∀ d ∈ ds, d.primary_key ∈ df1.index ∧ d.primary_key ∈ df2.index) := by
  refine ⟨rfl, ?_⟩
  intro b ds h d hd
  unfold compare_dataframes at h
  cases hcd : cdLoop C df1 df2 (commonCols df1 df2) (commonIndex df1 df2) with
  | error e =>
    rw [hcd] at h
    exact absurd h (by simp)
  | ok ds2 =>
    rw [hcd] at h
    simp only [Except.ok.injEq, Prod.mk.injEq] at h
    obtain ⟨hb, hds⟩ := h
    subst hds
    have hp := cdLoop_mem C df1 df2 (commonCols df1 df2) (commonIndex df1 df2)
      ds2 hcd d hd
    have hq := List.mem_filter.mp hp
    refine ⟨hq.1, ?_⟩
    have := hq.2
    simpa using this

/-- Witness for C10 at concrete tables and two distinct `primary_key`
strings. -/
theorem claim_C10_witness :
    compare_dataframes Fixtures.intCmp Fixtures.dfAgeA Fixtures.dfAgeB "age" =
      compare_dataframes Fixtures.intCmp Fixtures.dfAgeA Fixtures.dfAgeB "zzz" ∧
    (∀ d ∈ [(⟨3, ["age"], [("age", .vInt 31)], [("age", .vInt 30)]⟩ : DiffRecord)],
      d.primary_key ∈ Fixtures.dfAgeA.index ∧ d.primary_key ∈ Fixtures.dfAgeB.index) :=
  ⟨(claim_C10_primary_key_inert Fixtures.intCmp Fixtures.dfAgeA Fixtures.dfAgeB
      "age" "zzz").1,
    (claim_C10_primary_key_inert Fixtures.intCmp Fixtures.dfAgeA Fixtures.dfAgeB
      "age" "zzz").2 false
      [⟨3, ["age"], [("age", .vInt 31)], [("age", .vInt 30)]⟩] rfl⟩

mutual
/-- Python equality is reflexive on embedded values. -/
theorem pyEq_refl : ∀ v : PyValue, pyEq v v = true
  | .vNone => rfl
  | .vBool b => by simp [pyEq]
  | .vInt i => by simp [pyEq]
  | .vFloat q => by simp [pyEq]
  | .vStr s => by simp [pyEq]
  | .vList xs => by
    simp only [pyEq]
    exact pyEqList_refl xs
  | .vDict xs => by
    simp only [pyEq]
    exact pyEqDict_refl xs

/-- `pyEqList` is reflexive. -/
theorem pyEqList_refl : ∀ xs : List PyValue, pyEqList xs xs = true
  | [] => rfl
  | x :: xs => by
    simp only [pyEqList, Bool.and_eq_true]
    exact ⟨pyEq_refl x, pyEqList_refl xs⟩

/-- `pyEqDict` is reflexive. -/
theorem pyEqDict_refl : ∀ xs : List (String × PyValue), pyEqDict xs xs = true
  | [] => rfl
  | (k, v) :: xs => by
    simp only [pyEqDict, Bool.and_eq_true, beq_self_eq_true]
    exact ⟨⟨trivial, pyEq_refl v⟩, pyEqDict_refl xs⟩
end

/-- `None` is Python-equal only to `None`. -/
theorem pyEq_none_left (v : PyValue) : pyEq .vNone v = v.isNone := by
  cases v <;> rfl

/-- C6: with a declared (non-null) default `D` and both `null_equals_default`
and `ignore_default_value_diffs` enabled, the wrapped comparator accepts
`(None, D)`; and `(None, None)` is accepted under every policy
configuration (given the wrapped base comparator accepts `(D, D)`, which
every comparator of this module does on well-formed defaults). -/
theorem claim_C6_default_value_equivalence (cfg : ToleranceConfig)
    (D : PyValue) (nullable : Bool) (hD : D.isNone = false)
    (base : PyValue → PyValue → Except PyErr Bool)
    (hbase : base D D = .ok true)
    (h1 : cfg.null_equals_default = true)
    (h2 : cfg.ignore_default_value_diffs = true) :
    DefaultValueAwareComparator.compare cfg D nullable base .vNone D = .ok true ∧
    (∀ cfg' : ToleranceConfig,
      DefaultValueAwareComparator.compare cfg' D nullable base .vNone .vNone =
        .ok true) := by
  have hivn : (PyValue.vNone).isNone = true := rfl
  constructor
  · have hn1 : DefaultValueAwareComparator.normalizeValue cfg D .vNone = D := by
      simp only [DefaultValueAwareComparator.normalizeValue, hivn, h1, hD,
        Bool.not_false, Bool.and_self, if_true]
    have hn2 : DefaultValueAwareComparator.normalizeValue cfg D D = D := by
      simp only [DefaultValueAwareComparator.normalizeValue, hD,
        Bool.false_eq_true, if_false, ite_self]
    simp only [DefaultValueAwareComparator.compare, hn1, hn2, h2, hD,
      pyEq_refl, Bool.not_false, Bool.and_true, Bool.true_and, Bool.and_false,
      Bool.false_and, Bool.or_self, Bool.and_self, Bool.false_eq_true,
      if_false, if_true]
  · intro cfg'
    by_cases hnd : cfg'.null_equals_default = true
    · have hn : DefaultValueAwareComparator.normalizeValue cfg' D .vNone = D := by
        simp only [DefaultValueAwareComparator.normalizeValue, hivn, hnd, hD,
          Bool.not_false, Bool.and_self, if_true]
      by_cases hig : cfg'.ignore_default_value_diffs = true
      · simp only [DefaultValueAwareComparator.compare, hn, hig, hD, pyEq_refl,
          Bool.not_false, Bool.and_true, Bool.true_and, Bool.and_false,
          Bool.false_and, Bool.or_self, Bool.and_self, Bool.false_eq_true,
          if_false, if_true]
      · simp only [DefaultValueAwareComparator.compare, hn,
          eq_false_of_ne_true hig, hD, pyEq_refl, Bool.not_false,
          Bool.and_true, Bool.true_and, Bool.and_false, Bool.false_and,
          Bool.or_self, Bool.and_self, Bool.false_eq_true, if_false, if_true]
        exact hbase
    · have hn : DefaultValueAwareComparator.normalizeValue cfg' D .vNone =
          .vNone := by
        simp only [DefaultValueAwareComparator.normalizeValue, hivn,
          eq_false_of_ne_true hnd, hD, Bool.not_false, Bool.false_and,
          Bool.false_eq_true, if_false, if_true]
      simp only [DefaultValueAwareComparator.compare, hn, hivn, pyEq_none_left,
        hD, Bool.not_false, Bool.and_true, Bool.true_and, Bool.and_false,
        Bool.false_and, Bool.or_self, Bool.and_self, Bool.false_eq_true,
        if_false, if_true]

/-- Witness for C6 at a concrete integer default and the integer base
comparator. -/
theorem claim_C6_witness :
    ((PyValue.vInt 5).isNone = false) ∧
    (NumericComparator.compare defaultConfig true (.vInt 5) (.vInt 5) =
      .ok true) ∧
    DefaultValueAwareComparator.compare
      { defaultConfig with null_equals_default := true } (.vInt 5) false
      (NumericComparator.compare defaultConfig true) .vNone (.vInt 5) =
      .ok true ∧
    (∀ cfg' : ToleranceConfig,
      DefaultValueAwareComparator.compare cfg' (.vInt 5) false
        (NumericComparator.compare defaultConfig true) .vNone .vNone =
        .ok true) :=
  ⟨rfl, rfl,
    (claim_C6_default_value_equivalence
      { defaultConfig with null_equals_default := true } (.vInt 5) false rfl
      (NumericComparator.compare defaultConfig true) rfl rfl rfl).1,
    (claim_C6_default_value_equivalence
      { defaultConfig with null_equals_default := true } (.vInt 5) false rfl
      (NumericComparator.compare defaultConfig true) rfl rfl rfl).2⟩

/-- A list of floats converts to itself. -/
theorem toVec_map_vFloat (xs : List ℚ) :
    VectorComparator.toVec (.vList (xs.map PyValue.vFloat)) = .ok xs := by
  simp only [VectorComparator.toVec]
  induction xs with
  | nil => rfl
  | cons x t ih =>
    simp only [List.map_cons, VectorComparator.toVecElems, pyToFloat, ih]

/-- Sampling a vector either yields a vector or numpy's `ValueError` for a
negative sample count. -/
theorem sampleVector_cases (cfg : ToleranceConfig) (xs : List ℚ) :
    VectorComparator.sampleVector cfg xs = .error .valueError ∨
    ∃ ys, VectorComparator.sampleVector cfg xs = .ok ys := by
  unfold VectorComparator.sampleVector
  split
  · exact Or.inr ⟨xs, rfl⟩
  · split
    · exact Or.inr ⟨xs, rfl⟩
    · split
      · exact Or.inl rfl
      · exact Or.inr ⟨_, rfl⟩

/-- `np.allclose` is reflexive for nonnegative tolerances. -/
theorem allclose_self (cfg : ToleranceConfig)
    (hA : 0 ≤ cfg.vector_absolute_tolerance)
    (hR : 0 ≤ cfg.vector_relative_tolerance) (ys : List ℚ) :
    VectorComparator.allclose cfg ys ys = true := by
  induction ys with
  | nil => rfl
  | cons y t ih =>
    simp only [VectorComparator.allclose, List.zip_cons_cons, List.all_cons,
      Bool.and_eq_true, decide_eq_true_eq] at ih ⊢
    refine ⟨?_, ih⟩
    have hm := mul_nonneg hR (abs_nonneg y)
    simp only [sub_self, abs_zero]
    linarith

/-- C5: vector comparison is reflexive under any sampling configuration
(with nonnegative comparison tolerances), and the subsampling index plan is
a deterministic function of the vector length and the configuration,
covering both endpoints: in the subsampling branch the sampled values are
read at `samplePlan` indices, equal-length vectors share one plan, and the
plan's first index is `0` and its last is `n - 1`. -/
theorem claim_C5_vector_reflexive (cfg : ToleranceConfig)
    (hA : 0 ≤ cfg.vector_absolute_tolerance)
    (hR : 0 ≤ cfg.vector_relative_tolerance) (xs : List ℚ) :
    VectorComparator.compare cfg (.vList (xs.map PyValue.vFloat))
      (.vList (xs.map PyValue.vFloat)) = .ok true ∧
    (∀ ys : List ℚ, ¬(1 ≤ cfg.vector_sample_rate) →
      ¬((ys.length : Int) ≤ cfg.vector_min_sample_size) →
      ¬((ys.length : Int) ≤ VectorComparator.sampleSize cfg ys.length) →
      ¬(VectorComparator.sampleSize cfg ys.length < 0) →
      VectorComparator.sampleVector cfg ys =
        .ok ((VectorComparator.samplePlan cfg ys.length).map
          (fun i => ys.getD i 0))) ∧
    (∀ as bs : List ℚ, as.length = bs.length →
      VectorComparator.samplePlan cfg as.length =
        VectorComparator.samplePlan cfg bs.length) ∧
    (∀ n m : Nat, 2 ≤ m → m < n →
      (VectorComparator.linspaceIdx n m).head? = some 0 ∧
      (VectorComparator.linspaceIdx n m).getLast? = some (n - 1)) := by
  refine ⟨?_, ?_, ?_, ?_⟩
  · have htv := toVec_map_vFloat xs
    rcases sampleVector_cases cfg xs with hsv | ⟨ys, hsv⟩
    · simp [VectorComparator.compare, VectorComparator.sampleOperand, htv, hsv,
        caughtVT, PyValue.isNone]
    · simp [VectorComparator.compare, VectorComparator.sampleOperand, htv, hsv,
        PyValue.isNone, allclose_self cfg hA hR]
  · intro ys hr hmin hcov hneg
    rw [VectorComparator.sampleVector, if_neg (not_or.mpr ⟨hr, hmin⟩),
      if_neg hcov, if_neg hneg]
  · intro as bs hlen
    rw [hlen]
  · intro n m h2 hmn
    have hm1 : m ≠ 1 := by omega
    have hn1 : 1 ≤ n := by omega
    obtain ⟨k, hk⟩ : ∃ k, m = k + 1 := ⟨m - 1, by omega⟩
    subst hk
    have hkne : (k : ℚ) ≠ 0 := by
      have hk1 : 1 ≤ k := by omega
      exact_mod_cast Nat.one_le_iff_ne_zero.mp hk1
    constructor
    · simp only [VectorComparator.linspaceIdx, if_neg hm1]
      rw [List.range_succ_eq_map]
      simp only [List.map_cons, List.head?_cons]
      norm_num [ratTrunc]
    · simp only [VectorComparator.linspaceIdx, if_neg hm1]
      rw [List.range_succ, List.map_append]
      simp only [List.map_cons, List.map_nil]
      rw [List.getLast?_concat]
      have hcast : ((k + 1 : Nat) : ℚ) - 1 = (k : ℚ) := by push_cast; ring
      rw [hcast]
      have hdiv : (k : ℚ) * ((n : ℚ) - 1) / (k : ℚ) = (n : ℚ) - 1 := by
        field_simp
      rw [hdiv]
      have hnn : (0 : ℚ) ≤ (n : ℚ) - 1 := by
        have h1n : (1 : ℚ) ≤ (n : ℚ) := by exact_mod_cast hn1
        linarith
      have hfl : ratTrunc ((n : ℚ) - 1) = (n : Int) - 1 := by
        rw [ratTrunc, if_pos hnn]
        have hni : ((n : ℚ) - 1) = (((n : Int) - 1 : Int) : ℚ) := by
          push_cast
          ring
        rw [hni, Int.floor_intCast]
      rw [hfl]
      congr 1
      omega

/-- Witness for C5 at the default config, a concrete vector, and a concrete
subsampling plan (length 20 sampled to 10 indices). -/
theorem claim_C5_witness :
    (0 ≤ defaultConfig.vector_absolute_tolerance) ∧
    (0 ≤ defaultConfig.vector_relative_tolerance) ∧
    VectorComparator.compare defaultConfig
      (.vList ([(1 : ℚ), 2].map PyValue.vFloat))
      (.vList ([(1 : ℚ), 2].map PyValue.vFloat)) = .ok true ∧
    ((VectorComparator.linspaceIdx 20 10).head? = some 0 ∧
      (VectorComparator.linspaceIdx 20 10).getLast? = some 19) :=
  ⟨by simp [defaultConfig], by simp [defaultConfig],
    (claim_C5_vector_reflexive defaultConfig (by simp [defaultConfig])
      (by simp [defaultConfig]) [1, 2]).1,
    (claim_C5_vector_reflexive defaultConfig (by simp [defaultConfig])
      (by simp [defaultConfig]) [1, 2]).2.2.2 20 10 (by decide) (by decide)⟩

/-- C3 counterexample: the numeric comparator on a float-typed field raises
an uncaught `OverflowError` when one operand is an int beyond the double
range — `float(10 ** 400)` raises `OverflowError`, which the
`except (ValueError, TypeError)` clause does not catch — so field
comparison is not exception-free. -/
theorem claim_C3_counterexample :
    NumericComparator.compare defaultConfig false (.vInt (10 ^ 400))
      (.vFloat 0) = .error .overflowError := by rfl

/-- `float()` on a value with in-range ints either converts or raises a
caught error kind. -/
theorem pyToFloat_caught (v : PyValue) (hb : intsBounded v = true) :
    (∃ q, pyToFloat v = .ok q) ∨
    ∃ e, pyToFloat v = .error e ∧ caughtVT e = true := by
  cases v with
  | vNone => exact Or.inr ⟨.typeError, rfl, rfl⟩
  | vBool b => exact Or.inl ⟨_, rfl⟩
  | vInt i =>
    simp only [intsBounded] at hb
    exact Or.inl ⟨(i : ℚ), by simp [pyToFloat, of_decide_eq_true hb]⟩
  | vFloat q => exact Or.inl ⟨q, rfl⟩
  | vStr s =>
    cases hp : parseFloatStr s with
    | none => exact Or.inr ⟨.valueError, by simp [pyToFloat, hp], rfl⟩
    | some q => exact Or.inl ⟨q, by simp [pyToFloat, hp]⟩
  | vList xs => exact Or.inr ⟨.typeError, rfl, rfl⟩
  | vDict xs => exact Or.inr ⟨.typeError, rfl, rfl⟩

/-- `int()` either converts or raises a caught error kind (it can never
overflow). -/
theorem pyToInt_caught (v : PyValue) :
    (∃ n, pyToInt v = .ok n) ∨
    ∃ e, pyToInt v = .error e ∧ caughtVT e = true := by
  cases v with
  | vNone => exact Or.inr ⟨.typeError, rfl, rfl⟩
  | vBool b => exact Or.inl ⟨_, rfl⟩
  | vInt i => exact Or.inl ⟨i, rfl⟩
  | vFloat q => exact Or.inl ⟨_, rfl⟩
  | vStr s =>
    cases hp : parseIntStr s with
    | none => exact Or.inr ⟨.valueError, by simp [pyToInt, hp], rfl⟩
    | some n => exact Or.inl ⟨n, by simp [pyToInt, hp]⟩
  | vList xs => exact Or.inr ⟨.typeError, rfl, rfl⟩
  | vDict xs => exact Or.inr ⟨.typeError, rfl, rfl⟩

/-- The numeric comparator never lets an exception escape when all ints are
within float range. -/
theorem numeric_no_uncaught (cfg : ToleranceConfig) (isInt : Bool)
    (v1 v2 : PyValue) (h1 : intsBounded v1 = true) (h2 : intsBounded v2 = true)
    (e : PyErr) : NumericComparator.compare cfg isInt v1 v2 ≠ .error e := by
  intro hc
  unfold NumericComparator.compare at hc
  by_cases hn1 : v1.isNone
  · by_cases hn2 : v2.isNone <;> simp [hn1, hn2] at hc
  · by_cases hn2 : v2.isNone
    · simp [hn1, hn2] at hc
    · simp only [hn1, hn2, Bool.false_and, Bool.and_false, Bool.false_or,
        Bool.or_false, Bool.false_eq_true, if_false] at hc
      cases isInt with
      | true =>
        simp only [if_true] at hc
        rcases pyToInt_caught v1 with ⟨n1, hq1⟩ | ⟨e1, he1, hce1⟩
        · rcases pyToInt_caught v2 with ⟨n2, hq2⟩ | ⟨e2, he2, hce2⟩
          · rw [hq1, hq2] at hc
            simp at hc
          · rw [hq1, he2] at hc
            simp [hce2] at hc
        · rw [he1] at hc
          simp [hce1] at hc
      | false =>
        simp only [Bool.false_eq_true, if_false] at hc
        rcases pyToFloat_caught v1 h1 with ⟨q1, hq1⟩ | ⟨e1, he1, hce1⟩
        · rcases pyToFloat_caught v2 h2 with ⟨q2, hq2⟩ | ⟨e2, he2, hce2⟩
          · rw [hq1, hq2] at hc
            simp at hc
          · rw [hq1, he2] at hc
            simp [hce2] at hc
        · rw [he1] at hc
          simp [hce1] at hc

/-- Element conversion of a list of in-range values either converts or
raises a caught error kind. -/
theorem toVecElems_caught : ∀ xs : List PyValue, intsBoundedList xs = true →
    (∃ qs, VectorComparator.toVecElems xs = .ok qs) ∨
    ∃ e, VectorComparator.toVecElems xs = .error e ∧ caughtVT e = true := by
  intro xs
  induction xs with
  | nil => exact fun _ => Or.inl ⟨[], rfl⟩
  | cons x t ih =>
    intro hb
    simp only [intsBoundedList, Bool.and_eq_true] at hb
    rcases pyToFloat_caught x hb.1 with ⟨q, hq⟩ | ⟨e, he, hce⟩
    · rcases ih hb.2 with ⟨qs, hqs⟩ | ⟨e, he, hce⟩
      · exact Or.inl ⟨q :: qs, by simp [VectorComparator.toVecElems, hq, hqs]⟩
      · exact Or.inr ⟨e, by simp [VectorComparator.toVecElems, hq, he], hce⟩
    · exact Or.inr ⟨e, by simp [VectorComparator.toVecElems, he], hce⟩

/-- Conversion plus sampling of one operand either yields a vector or raises
a caught error kind, given in-range ints. -/
theorem sampleOperand_caught (cfg : ToleranceConfig) (v : PyValue)
    (hb : intsBounded v = true) :
    (∃ ys, VectorComparator.sampleOperand cfg v = .ok ys) ∨
    ∃ e, VectorComparator.sampleOperand cfg v = .error e ∧ caughtVT e = true := by
  cases v with
  | vList xs =>
    simp only [intsBounded] at hb
    rcases toVecElems_caught xs hb with ⟨qs, hqs⟩ | ⟨e, he, hce⟩
    · rcases sampleVector_cases cfg qs with hsv | ⟨ys, hsv⟩
      · exact Or.inr ⟨.valueError,
          by simp [VectorComparator.sampleOperand, VectorComparator.toVec, hqs, hsv], rfl⟩
      · exact Or.inl ⟨ys,
          by simp [VectorComparator.sampleOperand, VectorComparator.toVec, hqs, hsv]⟩
    · exact Or.inr ⟨e,
        by simp [VectorComparator.sampleOperand, VectorComparator.toVec, he], hce⟩
  | vNone => exact Or.inr ⟨.typeError, rfl, rfl⟩
  | vBool b => exact Or.inr ⟨.typeError, rfl, rfl⟩
  | vInt i => exact Or.inr ⟨.typeError, rfl, rfl⟩
  | vFloat q => exact Or.inr ⟨.typeError, rfl, rfl⟩
  | vStr s => exact Or.inr ⟨.typeError, rfl, rfl⟩
  | vDict xs => exact Or.inr ⟨.typeError, rfl, rfl⟩

/-- The vector comparator never lets an exception escape when all ints are
within float range. -/
theorem vector_no_uncaught (cfg : ToleranceConfig) (v1 v2 : PyValue)
    (h1 : intsBounded v1 = true) (h2 : intsBounded v2 = true) (e : PyErr) :
    VectorComparator.compare cfg v1 v2 ≠ .error e := by
  intro hc
  unfold VectorComparator.compare at hc
  by_cases hn1 : v1.isNone
  · by_cases hn2 : v2.isNone <;> simp [hn1, hn2] at hc
  · by_cases hn2 : v2.isNone
    · simp [hn1, hn2] at hc
    · simp only [hn1, hn2, Bool.false_and, Bool.and_false, Bool.false_or,
        Bool.or_false, Bool.false_eq_true, if_false] at hc
      rcases sampleOperand_caught cfg v1 h1 with ⟨a, ha⟩ | ⟨e1, he1, hce1⟩
      · rcases sampleOperand_caught cfg v2 h2 with ⟨b, hb2⟩ | ⟨e2, he2, hce2⟩
        · rw [ha, hb2] at hc
          by_cases hl : a.length ≠ b.length <;> simp [hl] at hc
        · rw [ha, he2] at hc
          simp [hce2] at hc
      · rw [he1] at hc
        simp [hce1] at hc

/-- Characters and keys burst out of a string/dict operand are in-range
values. -/
theorem intsBoundedList_vStr_map {α : Type} (f : α → String) :
    ∀ cs : List α, intsBoundedList (cs.map (fun c => PyValue.vStr (f c))) = true := by
  intro cs
  induction cs with
  | nil => rfl
  | cons c t ih => simp [intsBoundedList, intsBounded, ih]

/-- Successful `list()` conversion of an in-range value yields in-range
elements. -/
theorem toPyList_bounded (v : PyValue) (hb : intsBounded v = true)
    (l : List PyValue) (h : ArrayComparator.toPyList v = .ok l) :
    intsBoundedList l = true := by
  cases v with
  | vList xs =>
    simp only [ArrayComparator.toPyList, Except.ok.injEq] at h
    subst h
    simpa [intsBounded] using hb
  | vStr s =>
    simp only [ArrayComparator.toPyList, Except.ok.injEq] at h
    subst h
    exact intsBoundedList_vStr_map _ s.data
  | vDict xs =>
    simp only [ArrayComparator.toPyList, Except.ok.injEq] at h
    subst h
    exact intsBoundedList_vStr_map _ xs
  | vNone => cases h
  | vBool b => cases h
  | vInt i => cases h
  | vFloat q => cases h

/-- The per-element comparator never lets an exception escape on in-range
elements. -/
theorem elementCompare_no_uncaught (cfg : ToleranceConfig) (et : String)
    (e1 e2 : PyValue) (h1 : intsBounded e1 = true) (h2 : intsBounded e2 = true)
    (er : PyErr) : ArrayComparator.elementCompare cfg et e1 e2 ≠ .error er := by
  unfold ArrayComparator.elementCompare
  split
  · exact numeric_no_uncaught cfg _ e1 e2 h1 h2 er
  · intro hc
    cases hc

/-- The element loop never lets an exception escape on in-range elements. -/
theorem compareElems_no_uncaught (cfg : ToleranceConfig) (et : String) :
    ∀ (l1 l2 : List PyValue), intsBoundedList l1 = true →
      intsBoundedList l2 = true → ∀ er : PyErr,
      ArrayComparator.compareElems cfg et l1 l2 ≠ .error er := by
  intro l1
  induction l1 with
  | nil =>
    intro l2 _ _ er hc
    simp [ArrayComparator.compareElems] at hc
  | cons a t ih =>
    intro l2 hb1 hb2 er hc
    cases l2 with
    | nil => simp [ArrayComparator.compareElems] at hc
    | cons b t2 =>
      simp only [intsBoundedList, Bool.and_eq_true] at hb1 hb2
      simp only [ArrayComparator.compareElems] at hc
      cases hec : ArrayComparator.elementCompare cfg et a b with
      | error e => exact elementCompare_no_uncaught cfg et a b hb1.1 hb2.1 e hec
      | ok bv =>
        rw [hec] at hc
        cases bv with
        | true =>
          simp only at hc
          exact ih t2 hb1.2 hb2.2 er hc
        | false => simp at hc

/-- The array comparator never lets an exception escape when all ints are
within float range. -/
theorem array_no_uncaught (cfg : ToleranceConfig) (et : String)
    (v1 v2 : PyValue) (h1 : intsBounded v1 = true) (h2 : intsBounded v2 = true)
    (e : PyErr) : ArrayComparator.compare cfg et v1 v2 ≠ .error e := by
  intro hc
  unfold ArrayComparator.compare at hc
  by_cases hn1 : v1.isNone
  · by_cases hn2 : v2.isNone <;> simp [hn1, hn2] at hc
  · by_cases hn2 : v2.isNone
    · simp [hn1, hn2] at hc
    · simp only [hn1, hn2, Bool.false_and, Bool.and_false, Bool.false_or,
        Bool.or_false, Bool.false_eq_true, if_false] at hc
      cases hl1 : ArrayComparator.toPyList v1 with
      | error e1 =>
        rw [hl1] at hc
        have : caughtVT e1 = true := by
          cases v1 <;> simp [ArrayComparator.toPyList] at hl1 <;>
            simp [← hl1, caughtVT]
        simp [this] at hc
      | ok l1 =>
        rw [hl1] at hc
        cases hl2 : ArrayComparator.toPyList v2 with
        | error e2 =>
          rw [hl2] at hc
          have : caughtVT e2 = true := by
            cases v2 <;> simp [ArrayComparator.toPyList] at hl2 <;>
              simp [← hl2, caughtVT]
          simp [this] at hc
        | ok l2 =>
          rw [hl2] at hc
          by_cases hlen : l1.length ≠ l2.length
          · simp [hlen] at hc
          · simp only [hlen, if_false] at hc
            cases hce : ArrayComparator.compareElems cfg et l1 l2 with
            | error e3 =>
              exact compareElems_no_uncaught cfg et l1 l2
                (toPyList_bounded v1 h1 l1 hl1) (toPyList_bounded v2 h2 l2 hl2)
                e3 hce
            | ok bv =>
              rw [hce] at hc
              simp at hc

/-- C3 (amended): on operand pairs whose ints stay within double range, every
field comparator returns a boolean and raises nothing (the string, boolean
and JSON comparators are total on all inputs by construction — the JSON
comparator catches every exception); and whenever a (caught) conversion
failure occurs, the numeric comparator's verdict is exactly string equality
of the two raw values.  Out-of-range ints break totality
(`claim_C3_counterexample`). -/
theorem claim_C3_comparators_total (cfg : ToleranceConfig) (et : String)
    (v1 v2 : PyValue) (h1 : intsBounded v1 = true)
    (h2 : intsBounded v2 = true) :
    (∃ b, NumericComparator.compare cfg false v1 v2 = .ok b) ∧
    (∃ b, NumericComparator.compare cfg true v1 v2 = .ok b) ∧
    (∃ b, VectorComparator.compare cfg v1 v2 = .ok b) ∧
    (∃ b, ArrayComparator.compare cfg et v1 v2 = .ok b) ∧
    (∀ e, v1.isNone = false → v2.isNone = false → pyToFloat v1 = .error e →
      caughtVT e = true →
      NumericComparator.compare cfg false v1 v2 = .ok (pyStr v1 == pyStr v2)) ∧
    (∀ q e, v1.isNone = false → v2.isNone = false → pyToFloat v1 = .ok q →
      pyToFloat v2 = .error e → caughtVT e = true →
      NumericComparator.compare cfg false v1 v2 =
        .ok (pyStr v1 == pyStr v2)) := by
  refine ⟨?_, ?_, ?_, ?_, ?_, ?_⟩
  · cases hc : NumericComparator.compare cfg false v1 v2 with
    | error e => exact absurd hc (numeric_no_uncaught cfg false v1 v2 h1 h2 e)
    | ok b => exact ⟨b, rfl⟩
  · cases hc : NumericComparator.compare cfg true v1 v2 with
    | error e => exact absurd hc (numeric_no_uncaught cfg true v1 v2 h1 h2 e)
    | ok b => exact ⟨b, rfl⟩
  · cases hc : VectorComparator.compare cfg v1 v2 with
    | error e => exact absurd hc (vector_no_uncaught cfg v1 v2 h1 h2 e)
    | ok b => exact ⟨b, rfl⟩
  · cases hc : ArrayComparator.compare cfg et v1 v2 with
    | error e => exact absurd hc (array_no_uncaught cfg et v1 v2 h1 h2 e)
    | ok b => exact ⟨b, rfl⟩
  · intro e hn1 hn2 hf hcaught
    unfold NumericComparator.compare
    rw [hn1, hn2]
    simp only [Bool.false_and, Bool.and_false, Bool.false_or, Bool.or_false,
      Bool.false_eq_true, if_false]
    rw [hf]
    simp [hcaught]
  · intro q e hn1 hn2 hq hf hcaught
    unfold NumericComparator.compare
    rw [hn1, hn2]
    simp only [Bool.false_and, Bool.and_false, Bool.false_or, Bool.or_false,
      Bool.false_eq_true, if_false]
    rw [hq, hf]
    simp [hcaught]

/-- Witness for C3 at concrete unconvertible operands: the fallback string
equality fires and the comparison still returns a boolean. -/
theorem claim_C3_witness :
    (intsBounded (.vStr "abc") = true) ∧
    (∃ b, NumericComparator.compare defaultConfig false (.vStr "abc")
      (.vStr "abc") = .ok b) ∧
    ((PyValue.vList []).isNone = false → (PyValue.vList []).isNone = false →
      pyToFloat (.vList []) = .error .typeError →
      caughtVT .typeError = true →
      NumericComparator.compare defaultConfig false (.vList [])
        (.vList []) = .ok (pyStr (.vList []) == pyStr (.vList []))) :=
  ⟨rfl,
    (claim_C3_comparators_total defaultConfig "VARCHAR" (.vStr "abc")
      (.vStr "abc") rfl rfl).1,
    fun _ _ _ _ =>
      (claim_C3_comparators_total defaultConfig "VARCHAR" (.vList [])
        (.vList []) rfl rfl).2.2.2.2.1 .typeError rfl rfl rfl rfl⟩

/-- String `==` is reflexive, string rendering form. -/
theorem pyStr_beq_self (v : PyValue) : (pyStr v == pyStr v) = true := by simp

/-- The numeric comparator is reflexive on in-range values (with a
nonnegative absolute tolerance). -/
theorem numeric_refl (cfg : ToleranceConfig) (isInt : Bool) (v : PyValue)
    (habs : 0 ≤ cfg.float_absolute_tolerance) (hb : intsBounded v = true) :
    NumericComparator.compare cfg isInt v v = .ok true := by
  unfold NumericComparator.compare
  by_cases hn : v.isNone
  · simp [hn]
  · simp only [hn, Bool.false_and, Bool.and_false, Bool.false_or,
      Bool.or_false, Bool.false_eq_true, if_false]
    cases isInt with
    | true =>
      simp only [if_true]
      rcases pyToInt_caught v with ⟨n, hq⟩ | ⟨e, he, hce⟩
      · rw [hq]
        simp
      · rw [he]
        simp [hce]
    | false =>
      simp only [Bool.false_eq_true, if_false]
      rcases pyToFloat_caught v hb with ⟨q, hq⟩ | ⟨e, he, hce⟩
      · have hic : mathIsclose q q cfg.float_relative_tolerance
            cfg.float_absolute_tolerance = true := by
          simp only [mathIsclose, decide_eq_true_eq, sub_self, abs_zero]
          exact le_max_of_le_right habs
        rw [hq]
        simp [hic]
      · rw [he]
        simp [hce]

/-- The string comparator is reflexive. -/
theorem string_refl (cfg : ToleranceConfig) (v : PyValue) :
    StringComparator.compare cfg v v = true := by
  unfold StringComparator.compare
  by_cases hn : v.isNone
  · simp [hn]
  · by_cases hcs : cfg.string_case_sensitive <;> simp [hn, hcs]

/-- The boolean comparator is reflexive. -/
theorem boolean_refl (v : PyValue) : BooleanComparator.compare v v = true := by
  unfold BooleanComparator.compare
  by_cases hn : v.isNone <;> simp [hn]

/-- The vector comparator is reflexive on in-range values (with nonnegative
vector tolerances). -/
theorem vector_refl (cfg : ToleranceConfig) (v : PyValue)
    (hA : 0 ≤ cfg.vector_absolute_tolerance)
    (hR : 0 ≤ cfg.vector_relative_tolerance) (hb : intsBounded v = true) :
    VectorComparator.compare cfg v v = .ok true := by
  unfold VectorComparator.compare
  by_cases hn : v.isNone
  · simp [hn]
  · simp only [hn, Bool.false_and, Bool.and_false, Bool.false_or,
      Bool.or_false, Bool.false_eq_true, if_false]
    rcases sampleOperand_caught cfg v hb with ⟨ys, hy⟩ | ⟨e, he, hce⟩
    · rw [hy]
      simp [allclose_self cfg hA hR]
    · rw [he]
      simp [hce]

/-- `list()` failures are caught error kinds. -/
theorem toPyList_err_caught (v : PyValue) (e : PyErr)
    (h : ArrayComparator.toPyList v = .error e) : caughtVT e = true := by
  cases v <;> simp [ArrayComparator.toPyList] at h <;> simp [← h, caughtVT]

/-- The array element comparator is reflexive on in-range elements. -/
theorem elementCompare_refl (cfg : ToleranceConfig) (et : String)
    (x : PyValue) (habs : 0 ≤ cfg.float_absolute_tolerance)
    (hb : intsBounded x = true) :
    ArrayComparator.elementCompare cfg et x x = .ok true := by
  unfold ArrayComparator.elementCompare
  split
  · exact numeric_refl cfg _ x habs hb
  · rw [string_refl]

/-- The element loop is reflexive on in-range elements. -/
theorem compareElems_refl (cfg : ToleranceConfig) (et : String)
    (habs : 0 ≤ cfg.float_absolute_tolerance) :
    ∀ l : List PyValue, intsBoundedList l = true →
      ArrayComparator.compareElems cfg et l l = .ok true := by
  intro l
  induction l with
  | nil => intro _; rfl
  | cons x t ih =>
    intro hb
    simp only [intsBoundedList, Bool.and_eq_true] at hb
    simp only [ArrayComparator.compareElems,
      elementCompare_refl cfg et x habs hb.1, ih hb.2]

/-- The array comparator is reflexive on in-range values. -/
theorem array_refl (cfg : ToleranceConfig) (et : String) (v : PyValue)
    (habs : 0 ≤ cfg.float_absolute_tolerance) (hb : intsBounded v = true) :
    ArrayComparator.compare cfg et v v = .ok true := by
  unfold ArrayComparator.compare
  by_cases hn : v.isNone
  · simp [hn]
  · simp only [hn, Bool.false_and, Bool.and_false, Bool.false_or,
      Bool.or_false, Bool.false_eq_true, if_false]
    cases hl : ArrayComparator.toPyList v with
    | error e =>
      simp [toPyList_err_caught v e hl]
    | ok l =>
      simp [compareElems_refl cfg et habs l (toPyList_bounded v hb l hl)]

/-- Boolean key-duplicate check agrees with `List.Nodup`. -/
theorem noDupKeys_iff : ∀ l : List String, noDupKeys l = true ↔ l.Nodup := by
  intro l
  induction l with
  | nil => simp [noDupKeys]
  | cons k ks ih =>
    simp only [noDupKeys, Bool.and_eq_true, Bool.not_eq_true', List.nodup_cons, ih]
    constructor
    · rintro ⟨hc, hn⟩
      refine ⟨fun hm => ?_, hn⟩
      have hx : ks.contains k = true := List.elem_iff.mpr hm
      rw [hx] at hc
      cases hc
    · rintro ⟨hm, hn⟩
      refine ⟨?_, hn⟩
      by_cases hc : ks.contains k = true
      · exact absurd (List.elem_iff.mp hc) hm
      · simpa using hc

/-- The keys after an upsert: unchanged for an existing key, appended
otherwise. -/
theorem upsertD_keys (k : String) (v : PyValue) :
    ∀ d : List (String × PyValue),
      (PyJson.upsertD d k v).map Prod.fst =
        if k ∈ d.map Prod.fst then d.map Prod.fst
        else d.map Prod.fst ++ [k] := by
  intro d
  induction d with
  | nil => simp [PyJson.upsertD]
  | cons hd tl ih =>
    obtain ⟨k2, v2⟩ := hd
    by_cases hk : k2 = k
    · subst hk
      simp [PyJson.upsertD]
    · simp only [PyJson.upsertD, if_neg hk, List.map_cons, ih]
      have hne : (k ∈ k2 :: tl.map Prod.fst) ↔ k ∈ tl.map Prod.fst := by
        simp [List.mem_cons, Ne.symm hk, fun h : k = k2 => hk h.symm]
      by_cases hm : k ∈ tl.map Prod.fst
      · simp [hm, hne.mpr hm]
      · simp only [if_neg hm, List.map_cons]
        rw [if_neg (fun h => hm (hne.mp h))]
        simp

/-- Upserting preserves duplicate-freedom of the keys. -/
theorem upsertD_noDupKeys (k : String) (v : PyValue)
    (d : List (String × PyValue)) (h : noDupKeys (d.map Prod.fst) = true) :
    noDupKeys ((PyJson.upsertD d k v).map Prod.fst) = true := by
  rw [noDupKeys_iff] at h ⊢
  rw [upsertD_keys]
  by_cases hm : k ∈ d.map Prod.fst
  · simpa [hm] using h
  · simp only [if_neg hm]
    simp [List.nodup_append, h, hm]

/-- Upserting a well-keyed value preserves well-keyed entries. -/
theorem upsertD_keysNodupDict (k : String) (v : PyValue)
    (hv : keysNodupV v = true) :
    ∀ d : List (String × PyValue), keysNodupDict d = true →
      keysNodupDict (PyJson.upsertD d k v) = true := by
  intro d
  induction d with
  | nil =>
    intro _
    simp [PyJson.upsertD, keysNodupDict, hv]
  | cons hd tl ih =>
    obtain ⟨k2, v2⟩ := hd
    intro h
    simp only [keysNodupDict, Bool.and_eq_true] at h
    by_cases hk : k2 = k
    · subst hk
      simp [PyJson.upsertD, keysNodupDict, hv, h.2]
    · simp [PyJson.upsertD, if_neg hk, keysNodupDict, h.1, ih h.2]

mutual
/-- Canonicalization produces duplicate-free dict keys everywhere. -/
theorem canonV_keysNodup : ∀ v : PyValue, keysNodupV (PyJson.canonV v) = true
  | .vNone => by simp [PyJson.canonV, keysNodupV]
  | .vBool _ => by simp [PyJson.canonV, keysNodupV]
  | .vInt _ => by simp [PyJson.canonV, keysNodupV]
  | .vFloat _ => by simp [PyJson.canonV, keysNodupV]
  | .vStr _ => by simp [PyJson.canonV, keysNodupV]
  | .vList xs => by
    simp only [PyJson.canonV, keysNodupV]
    exact canonList_keysNodup xs
  | .vDict xs => by
    simp only [PyJson.canonV, keysNodupV, Bool.and_eq_true]
    exact canonDict_keysNodup [] xs rfl rfl
termination_by v => sizeOf v

/-- `canonV_keysNodup` over lists. -/
theorem canonList_keysNodup : ∀ xs : List PyValue,
    keysNodupList (PyJson.canonList xs) = true
  | [] => by simp [PyJson.canonList, keysNodupList]
  | x :: t => by
    simp only [PyJson.canonList, keysNodupList, Bool.and_eq_true]
    exact ⟨canonV_keysNodup x, canonList_keysNodup t⟩
termination_by xs => sizeOf xs

/-- `canonV_keysNodup` over dict rebuilds, tracking the accumulator
invariant. -/
theorem canonDict_keysNodup : ∀ (acc xs : List (String × PyValue)),
    noDupKeys (acc.map Prod.fst) = true → keysNodupDict acc = true →
    noDupKeys ((PyJson.canonDict acc xs).map Prod.fst) = true ∧
      keysNodupDict (PyJson.canonDict acc xs) = true
  | acc, [] => fun h1 h2 => by
    simp only [PyJson.canonDict]
    exact ⟨h1, h2⟩
  | acc, (k, v) :: rest => fun h1 h2 => by
    simp only [PyJson.canonDict]
    exact canonDict_keysNodup (PyJson.upsertD acc k (PyJson.canonV v)) rest
      (upsertD_noDupKeys k _ acc h1)
      (upsertD_keysNodupDict k _ (canonV_keysNodup v) acc h2)
termination_by acc xs => sizeOf xs
end

/-- With duplicate-free keys, looking an entry's key up returns that
entry's value. -/
theorem lookupD_self : ∀ d : List (String × PyValue),
    noDupKeys (d.map Prod.fst) = true →
    ∀ kv ∈ d, lookupD kv.1 d = some kv.2 := by
  intro d
  induction d with
  | nil => intro _ kv hkv; cases hkv
  | cons hd tl ih =>
    obtain ⟨k, v⟩ := hd
    intro h kv hkv
    simp only [noDupKeys, List.map_cons, Bool.and_eq_true,
      Bool.not_eq_true'] at h
    rcases List.mem_cons.mp hkv with hh | hh
    · subst hh
      simp [lookupD]
    · have hkne : k ≠ kv.1 := by
        intro heq
        obtain ⟨k1, v1⟩ := kv
        simp only at heq hh
        subst heq
        simp at h
        exact h.1 v1 hh
      simp only [lookupD, if_neg hkne]
      exact ih h.2 kv hh

/-- A key set equals itself. -/
theorem keySetEq_refl (a : List String) : JSONComparator.keySetEq a a = true := by
  simp only [JSONComparator.keySetEq, Bool.and_self, List.all_eq_true]
  intro x hx
  rw [List.elem_iff]
  exact hx

/-- Unfolding the dict walker at a key that resolves in the second dict. -/
theorem jsonRecPairs_cons_lookup (cfg : ToleranceConfig) (k : String)
    (v w : PyValue) (as bs : List (String × PyValue))
    (hlk : lookupD k bs = some w) :
    JSONComparator.jsonRecPairs cfg ((k, v) :: as) bs =
      match JSONComparator.jsonRec cfg v w with
      | .error e => .error e
      | .ok true => JSONComparator.jsonRecPairs cfg as bs
      | .ok false => .ok false := by
  simp only [JSONComparator.jsonRecPairs]
  split
  · rename_i heq
    rw [hlk] at heq
    cases heq
  · rename_i w2 heq
    rw [hlk] at heq
    injection heq with hw
    subst hw
    rfl

/-- `math.isclose` is reflexive given a nonnegative absolute tolerance. -/
theorem mathIsclose_self (x rel abs2 : ℚ) (habs : 0 ≤ abs2) :
    mathIsclose x x rel abs2 = true := by
  simp only [mathIsclose, decide_eq_true_eq, sub_self, abs_zero]
  exact le_max_of_le_right habs

mutual
/-- Recursive JSON comparison of a well-keyed value with itself either
accepts or raises (an out-of-range int leaf propagates `OverflowError`,
which the top-level catch-all then absorbs). -/
theorem jsonRec_self : ∀ (cfg : ToleranceConfig),
    0 ≤ cfg.float_absolute_tolerance → ∀ v : PyValue, keysNodupV v = true →
    JSONComparator.jsonRec cfg v v = .ok true ∨
      ∃ e, JSONComparator.jsonRec cfg v v = .error e
  | cfg, habs, .vNone, _ => Or.inl (by simp [JSONComparator.jsonRec, pyEq])
  | cfg, habs, .vBool b, _ => Or.inl (by
      simp [JSONComparator.jsonRec, mathIsclose_self _ _ _ habs])
  | cfg, habs, .vInt i, _ => by
      cases hf : pyToFloat (.vInt i) with
      | error e =>
        right
        exact ⟨e, by simp [JSONComparator.jsonRec, hf]⟩
      | ok x =>
        left
        simp [JSONComparator.jsonRec, hf, mathIsclose_self _ _ _ habs]
  | cfg, habs, .vFloat q, _ => Or.inl (by
      simp [JSONComparator.jsonRec, mathIsclose_self _ _ _ habs])
  | cfg, habs, .vStr s, _ => Or.inl (by simp [JSONComparator.jsonRec, pyEq_refl])
  | cfg, habs, .vList xs, hk => by
      have hk2 : keysNodupList xs = true := hk
      by_cases hio : (cfg.json_ignore_order &&
          xs.all JSONComparator.notContainer &&
          xs.all JSONComparator.notContainer) = true
      · left
        simp [JSONComparator.jsonRec, hio]
      · rcases jsonRecList_self cfg habs xs hk2 with h | ⟨e, h⟩
        · left
          simp [JSONComparator.jsonRec, hio, h]
        · right
          exact ⟨e, by simp [JSONComparator.jsonRec, hio, h]⟩
  | cfg, habs, .vDict d, hk => by
      have hk2 : noDupKeys (d.map Prod.fst) = true ∧ keysNodupDict d = true := by
        simpa [keysNodupV, Bool.and_eq_true] using hk
      rcases jsonRecPairs_self cfg habs d d hk2.2 (lookupD_self d hk2.1) with
        h | ⟨e, h⟩
      · left
        simp [JSONComparator.jsonRec, keySetEq_refl, h]
      · right
        exact ⟨e, by simp [JSONComparator.jsonRec, keySetEq_refl, h]⟩
termination_by cfg habs v hk => sizeOf v

/-- `jsonRec_self` over positional list comparison. -/
theorem jsonRecList_self : ∀ (cfg : ToleranceConfig),
    0 ≤ cfg.float_absolute_tolerance → ∀ xs : List PyValue,
    keysNodupList xs = true →
    JSONComparator.jsonRecList cfg xs xs = .ok true ∨
      ∃ e, JSONComparator.jsonRecList cfg xs xs = .error e
  | cfg, habs, [], _ => Or.inl (by simp [JSONComparator.jsonRecList])
  | cfg, habs, x :: t, hk => by
      have hk2 : keysNodupV x = true ∧ keysNodupList t = true := by
        simpa [keysNodupList, Bool.and_eq_true] using hk
      rcases jsonRec_self cfg habs x hk2.1 with h | ⟨e, h⟩
      · rcases jsonRecList_self cfg habs t hk2.2 with h2 | ⟨e2, h2⟩
        · left
          simp [JSONComparator.jsonRecList, h, h2]
        · right
          exact ⟨e2, by simp [JSONComparator.jsonRecList, h, h2]⟩
      · right
        exact ⟨e, by simp [JSONComparator.jsonRecList, h]⟩
termination_by cfg habs xs hk => sizeOf xs

/-- `jsonRec_self` over the dict walker, against a dict in which every
walked entry looks itself up. -/
theorem jsonRecPairs_self : ∀ (cfg : ToleranceConfig),
    0 ≤ cfg.float_absolute_tolerance →
    ∀ (as bs : List (String × PyValue)), keysNodupDict as = true →
    (∀ kv ∈ as, lookupD kv.1 bs = some kv.2) →
    JSONComparator.jsonRecPairs cfg as bs = .ok true ∨
      ∃ e, JSONComparator.jsonRecPairs cfg as bs = .error e
  | cfg, habs, [], bs, _, _ => Or.inl (by simp [JSONComparator.jsonRecPairs])
  | cfg, habs, (k, v) :: as, bs, hd, hl => by
      have hd2 : keysNodupV v = true ∧ keysNodupDict as = true := by
        simpa [keysNodupDict, Bool.and_eq_true] using hd
      have hlk : lookupD k bs = some v := hl (k, v) (List.mem_cons_self _ _)
      rw [jsonRecPairs_cons_lookup cfg k v v as bs hlk]
      rcases jsonRec_self cfg habs v hd2.1 with h | ⟨e, h⟩
      · rcases jsonRecPairs_self cfg habs as bs hd2.2
            (fun kv hkv => hl kv (List.mem_cons_of_mem _ hkv)) with h2 | ⟨e2, h2⟩
        · left
          simp [h, h2]
        · right
          exact ⟨e2, by simp [h, h2]⟩
      · right
        exact ⟨e, by simp [h]⟩
termination_by cfg habs as bs hd hl => sizeOf as
end

/-- Normalization keeps dict keys duplicate-free (a parsed document is
canonicalized). -/
theorem normalizeJson_keysNodup (v : PyValue) (hk : keysNodupV v = true) :
    keysNodupV (JSONComparator.normalizeJson v) = true := by
  cases v with
  | vStr s =>
    simp only [JSONComparator.normalizeJson]
    cases hp : PyJson.parseJsonValue (s.length + 1) s.data with
    | none => simp [keysNodupV]
    | some p =>
      obtain ⟨j, rest⟩ := p
      by_cases hw : (PyJson.skipWs rest).isEmpty = true
      · simp [hw, canonV_keysNodup j]
      · simp [hw, keysNodupV]
  | vNone => exact hk
  | vBool b => exact hk
  | vInt i => exact hk
  | vFloat q => exact hk
  | vList xs => exact hk
  | vDict d => exact hk

/-- The JSON comparator is reflexive on well-keyed values: the recursive
comparison accepts, or its exception is absorbed by the catch-all and the
string fallback compares a value's rendering with itself. -/
theorem jsonCompare_refl (cfg : ToleranceConfig)
    (habs : 0 ≤ cfg.float_absolute_tolerance) (v : PyValue)
    (hk : keysNodupV v = true) : JSONComparator.compare cfg v v = true := by
  unfold JSONComparator.compare
  by_cases hn : v.isNone
  · simp [hn]
  · simp only [hn, Bool.false_and, Bool.and_false, Bool.false_or,
      Bool.or_false, Bool.false_eq_true, if_false]
    rcases jsonRec_self cfg habs (JSONComparator.normalizeJson v)
        (normalizeJson_keysNodup v hk) with h | ⟨e, h⟩
    · rw [h]
    · rw [h]
      simp

/-- Normalization returns the value, the default, or `None`. -/
theorem normalizeValue_cases (cfg : ToleranceConfig) (dflt v : PyValue) :
    DefaultValueAwareComparator.normalizeValue cfg dflt v = v ∨
    DefaultValueAwareComparator.normalizeValue cfg dflt v = dflt ∨
    DefaultValueAwareComparator.normalizeValue cfg dflt v = .vNone := by
  unfold DefaultValueAwareComparator.normalizeValue
  split
  · split
    · right
      left
      rfl
    · right
      right
      rfl
  · split
    · right
      left
      rfl
    · left
      rfl

/-- The default/null-aware wrapper is reflexive whenever its base comparator
is reflexive on well-formed values and the declared default is well formed. -/
theorem dva_refl (cfg : ToleranceConfig) (dflt : PyValue) (nullable : Bool)
    (base : PyValue → PyValue → Except PyErr Bool)
    (hbase : ∀ w, wfV w = true → base w w = .ok true)
    (hdw : wfV dflt = true) (v : PyValue) (hv : wfV v = true) :
    DefaultValueAwareComparator.compare cfg dflt nullable base v v = .ok true := by
  unfold DefaultValueAwareComparator.compare
  dsimp only
  split
  · rfl
  · split
    · rfl
    · split
      · rfl
      · split
        · rename_i h3 h4
          simp only [Bool.and_self] at h3
          simp only [Bool.or_self] at h4
          exact absurd h4 h3
        · rename_i h3 h4
          apply hbase
          rcases normalizeValue_cases cfg dflt v with h | h | h
          · rw [h]
            exact hv
          · rw [h]
            exact hdw
          · rw [h] at h3
            simp [PyValue.isNone] at h3

/-- Every base comparator kind is reflexive on well-formed values under
nonnegative tolerances. -/
theorem compKind_refl (cfg : ToleranceConfig) (ht : nonnegTol cfg)
    (k : CompKind) (v : PyValue) (hv : wfV v = true) :
    k.interp cfg v v = .ok true := by
  obtain ⟨h1, h2, h3, h4⟩ := ht
  have hv2 := hv
  simp only [wfV, Bool.and_eq_true] at hv2
  cases k with
  | jsonK =>
    simp only [CompKind.interp]
    rw [jsonCompare_refl cfg h1 v hv2.2]
  | vectorK => exact vector_refl cfg v h3 h4 hv2.1
  | arrayK et => exact array_refl cfg et v h1 hv2.1
  | numericK dt => exact numeric_refl cfg _ v h1 hv2.1
  | booleanK =>
    simp only [CompKind.interp]
    rw [boolean_refl]
  | stringK =>
    simp only [CompKind.interp]
    rw [string_refl]

/-- Every built comparator is reflexive on well-formed values, given a
well-formed declared default. -/
theorem builtComp_refl (cfg : ToleranceConfig) (ht : nonnegTol cfg)
    (bc : BuiltComp) (hdw : bc.wfDefault = true) (v : PyValue)
    (hv : wfV v = true) : bc.interp cfg v v = .ok true := by
  cases bc with
  | base k => exact compKind_refl cfg ht k v hv
  | wrapped k fs =>
    exact dva_refl cfg (fs.default_value.getD .vNone) fs.nullable _
      (fun w hw => compKind_refl cfg ht k w hw) hdw v hv

/-- A successful lookup returns a member pair. -/
theorem lookupD_mem (k : String) : ∀ (d : List (String × PyValue)) (w : PyValue),
    lookupD k d = some w → (k, w) ∈ d := by
  intro d
  induction d with
  | nil => intro w h; cases h
  | cons hd tl ih =>
    obtain ⟨k2, v2⟩ := hd
    intro w h
    by_cases hk : k2 = k
    · subst hk
      rw [lookupD, if_pos rfl] at h
      injection h with h
      subst h
      exact List.mem_cons_self _ _
    · rw [lookupD, if_neg hk] at h
      exact List.mem_cons_of_mem _ (ih w h)

/-- Entry values of a well-keyed dict are well keyed. -/
theorem keysNodupDict_mem : ∀ d : List (String × PyValue),
    keysNodupDict d = true → ∀ kv ∈ d, keysNodupV kv.2 = true := by
  intro d
  induction d with
  | nil => intro _ kv h; cases h
  | cons hd tl ih =>
    obtain ⟨k2, v2⟩ := hd
    intro h kv hkv
    simp only [keysNodupDict, Bool.and_eq_true] at h
    rcases List.mem_cons.mp hkv with hh | hh
    · subst hh
      exact h.1
    · exact ih h.2 kv hh

/-- The dynamic-field comparison of a well-formed `$meta` value (absent or a
dict) with itself reports equality and no differences. -/
theorem dynamic_refl (cfg : ToleranceConfig)
    (habs : 0 ≤ cfg.float_absolute_tolerance) (m : PyValue)
    (hm : (m.isNone || isDictV m) = true) (hw : wfV m = true) :
    DynamicFieldComparator.compareDynamicFields cfg m m = .ok (true, []) := by
  unfold DynamicFieldComparator.compareDynamicFields
  by_cases hh : cfg.handle_dynamic_fields
  · by_cases hn : m.isNone
    · simp [hh, hn]
    · cases m with
      | vDict d =>
        have hkd : keysNodupDict d = true := by
          simp only [wfV, keysNodupV, Bool.and_eq_true] at hw
          exact hw.2.2
        have hvals : ∀ k, JSONComparator.compare cfg
            ((lookupD k d).getD .vNone) ((lookupD k d).getD .vNone) = true := by
          intro k
          apply jsonCompare_refl cfg habs
          cases hl : lookupD k d with
          | none => simp [keysNodupV]
          | some w =>
            simp only [Option.getD_some]
            exact keysNodupDict_mem d hkd (k, w) (lookupD_mem k d w hl)
        have hfil : ((DynamicFieldComparator.unionKeys (d.map Prod.fst)
            (d.map Prod.fst)).filter (fun k => !JSONComparator.compare cfg
              ((lookupD k d).getD .vNone) ((lookupD k d).getD .vNone))) = [] := by
          rw [List.filter_eq_nil]
          intro k _
          simp [hvals k]
        simp [hh, hn, PyValue.isNone, hfil]
      | vNone => simp [PyValue.isNone] at hn
      | vBool b => simp [PyValue.isNone, isDictV] at hm hn
      | vInt i => simp [PyValue.isNone, isDictV] at hm hn
      | vFloat q => simp [PyValue.isNone, isDictV] at hm hn
      | vStr s => simp [PyValue.isNone, isDictV] at hm hn
      | vList xs => simp [PyValue.isNone, isDictV] at hm hn
  · simp [hh]

/-- A successful comparator lookup returns a member pair. -/
theorem lookupC_mem (f : String) : ∀ (comps : List (String × BuiltComp))
    (c : BuiltComp), lookupC f comps = some c → (f, c) ∈ comps := by
  intro comps
  induction comps with
  | nil => intro c h; cases h
  | cons hd tl ih =>
    obtain ⟨k2, c2⟩ := hd
    intro c h
    by_cases hk : k2 = f
    · subst hk
      rw [lookupC, if_pos rfl] at h
      injection h with h
      subst h
      exact List.mem_cons_self _ _
    · rw [lookupC, if_neg hk] at h
      exact List.mem_cons_of_mem _ (ih c h)

/-- A successful schema lookup returns a member pair. -/
theorem lookupS_mem (f : String) : ∀ (schemas : List (String × FieldSchema))
    (fs : FieldSchema), lookupS f schemas = some fs → (f, fs) ∈ schemas := by
  intro schemas
  induction schemas with
  | nil => intro fs h; cases h
  | cons hd tl ih =>
    obtain ⟨k2, fs2⟩ := hd
    intro fs h
    by_cases hk : k2 = f
    · subst hk
      rw [lookupS, if_pos rfl] at h
      injection h with h
      subst h
      exact List.mem_cons_self _ _
    · rw [lookupS, if_neg hk] at h
      exact List.mem_cons_of_mem _ (ih fs h)

/-- Every comparator the builder emits carries a well-formed default, given
well-formed schemas. -/
theorem buildOne_wfDefault (cfg : ToleranceConfig) (cats : FieldCategories)
    (schemas : List (String × FieldSchema)) (ft : String × String)
    (hs : wfSchemas schemas = true) :
    ((buildOneComparator cfg cats schemas ft).2).wfDefault = true := by
  unfold buildOneComparator
  dsimp only
  cases hls : lookupS ft.1 schemas with
  | none => simp [hls, BuiltComp.wfDefault]
  | some fs =>
    have hwf : wfV (fs.default_value.getD .vNone) = true := by
      have hmem := lookupS_mem ft.1 schemas fs hls
      have hall := List.all_eq_true.mp hs _ hmem
      exact hall
    simp only [hls]
    split
    · simp [BuiltComp.wfDefault, hwf]
    · simp [BuiltComp.wfDefault]

/-- Every comparator looked up among the built ones is reflexive on
well-formed values. -/
theorem built_refl (cfg : ToleranceConfig) (ht : nonnegTol cfg)
    (fts : List (String × String)) (cats : FieldCategories)
    (schemas : List (String × FieldSchema)) (hs : wfSchemas schemas = true)
    (f : String) (c : BuiltComp)
    (hc : lookupC f (buildFieldComparators cfg fts cats schemas) = some c)
    (v : PyValue) (hv : wfV v = true) : c.interp cfg v v = .ok true := by
  apply builtComp_refl cfg ht c _ v hv
  have hmem := lookupC_mem f _ c hc
  rw [buildFieldComparators] at hmem
  obtain ⟨ft, hft, heq⟩ := List.mem_map.mp hmem
  have hcc : c = (buildOneComparator cfg cats schemas ft).2 := by rw [heq]
  rw [hcc]
  exact buildOne_wfDefault cfg cats schemas ft hs

/-- Every field read out of a well-formed record is well formed. -/
theorem recGet_wf (r : Record) (hr : wfRecord r = true) (f : String) :
    wfV (recGet r f) = true := by
  simp only [wfRecord, Bool.and_eq_true] at hr
  unfold recGet
  cases hl : lookupD f r with
  | none => rfl
  | some w =>
    have hmem := lookupD_mem f r w hl
    have := List.all_eq_true.mp hr.1 _ hmem
    exact this

/-- The per-field loop accepts a record against itself whenever every
registered comparator accepts each field value against itself. -/
theorem crLoop_refl (cfg : ToleranceConfig) (comps : List (String × BuiltComp))
    (r : Record)
    (hcomp : ∀ f c, lookupC f comps = some c →
      c.interp cfg (recGet r f) (recGet r f) = .ok true) :
    ∀ fields : List String, crLoop cfg comps r r fields = .ok [] := by
  intro fields
  induction fields with
  | nil => rfl
  | cons f rest ih =>
    by_cases hm : f = "$meta"
    · simp [crLoop, hm, ih]
    · cases hl : lookupC f comps with
      | none => simp [crLoop, hm, hl, ih, pyEq_refl]
      | some c => simp [crLoop, hm, hl, hcomp f c hl, ih]

/-- C4: a well-formed record compared against itself — well-formed field
values, dict keys duplicate-free, a dict (or absent) dynamic side-map, and
nonnegative tolerances with well-formed schema defaults — is reported equal
with an empty difference list. -/
theorem claim_C4_compare_records_round_trip (cfg : ToleranceConfig)
    (fts : List (String × String)) (cats : FieldCategories)
    (schemas : List (String × FieldSchema)) (ht : nonnegTol cfg)
    (hs : wfSchemas schemas = true) (r : Record) (hr : wfRecord r = true) :
    compare_records (mkHPComparator cfg fts cats schemas) r r none =
      .ok (true, []) := by
  have hmeta : ((recGet r "$meta").isNone || isDictV (recGet r "$meta")) = true := by
    simp only [wfRecord, Bool.and_eq_true] at hr
    exact hr.2
  have hloop := crLoop_refl cfg (buildFieldComparators cfg fts cats schemas) r
    (fun f c hc => built_refl cfg ht fts cats schemas hs f c hc (recGet r f)
      (recGet_wf r hr f))
  have hdyn := dynamic_refl cfg ht.1 (recGet r "$meta") hmeta
    (recGet_wf r hr "$meta")
  unfold compare_records mkHPComparator
  dsimp only
  rw [hloop]
  by_cases hh : cfg.handle_dynamic_fields = true
  · simp [hh, hdyn]
  · simp [hh]

/-- Witness for C4 at a concrete record with numeric, string, defaulted and
dynamic fields. -/
theorem claim_C4_witness :
    nonnegTol defaultConfig ∧
    wfSchemas [("score", { default_value := some (.vFloat 0) })] = true ∧
    wfRecord Fixtures.sampleRecord = true ∧
    compare_records Fixtures.wideCmp Fixtures.sampleRecord
      Fixtures.sampleRecord none = .ok (true, []) :=
  ⟨⟨by simp [defaultConfig], by simp [defaultConfig], by simp [defaultConfig],
      by simp [defaultConfig]⟩, by decide, by decide,
    claim_C4_compare_records_round_trip defaultConfig
      [("id", "INT64"), ("name", "VARCHAR"), ("score", "DOUBLE")] {}
      [("score", { default_value := some (.vFloat 0) })]
      ⟨by simp [defaultConfig], by simp [defaultConfig],
        by simp [defaultConfig], by simp [defaultConfig]⟩
      (by decide) Fixtures.sampleRecord (by decide)⟩

/-- C7 counterexample: two tables agreeing on every common column (`age`)
still produce a diff record, reporting the dynamic key `x` — read from the
`$meta` column present only in the first table — as a differing field,
although `x` lies outside the column intersection; so `compare_tables` does
not compare only the intersection of the two tables' columns. -/
theorem claim_C7_counterexample :
    compare_dataframes Fixtures.intCmp Fixtures.dfMeta1 Fixtures.dfMeta2 "id" =
      .ok (false, [⟨1, ["x"], [("x", .vNone)], [("x", .vNone)]⟩]) ∧
    commonCols Fixtures.dfMeta1 Fixtures.dfMeta2 = ["age"] ∧
    ¬("x" ∈ commonCols Fixtures.dfMeta1 Fixtures.dfMeta2) :=
  ⟨rfl, rfl, by decide⟩

/-- The per-field loop only reports fields it was asked to compare, never
the reserved `$meta` name. -/
theorem crLoop_sub (cfg : ToleranceConfig) (comps : List (String × BuiltComp))
    (r1 r2 : Record) :
    ∀ (fs : List String) (ds : List String),
      crLoop cfg comps r1 r2 fs = .ok ds → ∀ f ∈ ds, f ∈ fs ∧ f ≠ "$meta" := by
  intro fs
  induction fs with
  | nil =>
    intro ds h f hf
    simp only [crLoop, Except.ok.injEq] at h
    subst h
    cases hf
  | cons g rest ih =>
    intro ds h f hf
    by_cases hm : g = "$meta"
    · simp only [crLoop, if_pos hm] at h
      have := ih ds h f hf
      exact ⟨List.mem_cons_of_mem _ this.1, this.2⟩
    · simp only [crLoop, if_neg hm] at h
      cases hl : lookupC g comps with
      | none =>
        rw [hl] at h
        cases hr : crLoop cfg comps r1 r2 rest with
        | error e =>
          rw [hr] at h
          cases h
        | ok ds2 =>
          rw [hr] at h
          simp only [Except.ok.injEq] at h
          subst h
          by_cases hpe : pyEq (recGet r1 g) (recGet r2 g) = true
          · simp only [hpe, if_true] at hf
            have := ih ds2 hr f hf
            exact ⟨List.mem_cons_of_mem _ this.1, this.2⟩
          · simp only [eq_false_of_ne_true hpe, Bool.false_eq_true, if_false] at hf
            rcases List.mem_cons.mp hf with hh | hh
            · subst hh
              exact ⟨List.mem_cons_self _ _, hm⟩
            · have := ih ds2 hr f hh
              exact ⟨List.mem_cons_of_mem _ this.1, this.2⟩
      | some c =>
        cases hcc : c.interp cfg (recGet r1 g) (recGet r2 g) with
        | error e =>
          simp only [hl, hcc] at h
          cases h
        | ok bv =>
          cases hr : crLoop cfg comps r1 r2 rest with
          | error e =>
            simp only [hl, hcc, hr] at h
            cases h
          | ok ds2 =>
            simp only [hl, hcc, hr, Except.ok.injEq] at h
            subst h
            by_cases hb : bv = true
            · rw [if_pos hb] at hf
              have := ih ds2 hr f hf
              exact ⟨List.mem_cons_of_mem _ this.1, this.2⟩
            · rw [if_neg hb] at hf
              rcases List.mem_cons.mp hf with hh | hh
              · subst hh
                exact ⟨List.mem_cons_self _ _, hm⟩
              · have := ih ds2 hr f hh
                exact ⟨List.mem_cons_of_mem _ this.1, this.2⟩

/-- Dynamic comparison of two absent side-maps is silent under every
configuration. -/
theorem dynamic_none (cfg : ToleranceConfig) :
    DynamicFieldComparator.compareDynamicFields cfg .vNone .vNone =
      .ok (true, []) := by
  unfold DynamicFieldComparator.compareDynamicFields
  by_cases hh : cfg.handle_dynamic_fields <;> simp [hh, PyValue.isNone]

/-- With both `$meta` entries absent, `compare_records` reports exactly the
per-field loop's differences over the requested fields, and its verdict is
their emptiness. -/
theorem compare_records_fields (C : HPComparator) (r1 r2 : Record)
    (ccols : List String) (b : Bool) (ds : List String)
    (hm1 : recGet r1 "$meta" = .vNone) (hm2 : recGet r2 "$meta" = .vNone)
    (h : compare_records C r1 r2 (some ccols) = .ok (b, ds)) :
    (∀ f ∈ ds, f ∈ ccols ∧ f ≠ "$meta") ∧ (b = true ↔ ds = []) := by
  unfold compare_records at h
  cases hcr : crLoop C.cfg C.comps r1 r2 ccols with
  | error e =>
    simp only [Option.getD_some, hcr] at h
    cases h
  | ok ds0 =>
    simp only [Option.getD_some, hcr, hm1, hm2] at h
    by_cases hh : C.cfg.handle_dynamic_fields = true
    · rw [if_pos hh, dynamic_none] at h
      simp only [List.append_nil, if_true, Except.ok.injEq, Prod.mk.injEq] at h
      obtain ⟨hb, hds⟩ := h
      subst hds
      refine ⟨crLoop_sub C.cfg C.comps r1 r2 ccols _ hcr, ?_⟩
      rw [← hb]
      simp [List.isEmpty_iff]
    · rw [if_neg hh] at h
      simp only [Except.ok.injEq, Prod.mk.injEq] at h
      obtain ⟨hb, hds⟩ := h
      subst hds
      refine ⟨crLoop_sub C.cfg C.comps r1 r2 ccols _ hcr, ?_⟩
      rw [← hb]
      simp [List.isEmpty_iff]

/-- Looking a key up in a zipped row misses whenever the key is not a
column. -/
theorem lookupD_zip_not_mem (k : String) :
    ∀ (cols : List String) (vals : List PyValue), cols.contains k = false →
      lookupD k (cols.zip vals) = none := by
  intro cols
  induction cols with
  | nil => intro vals _; rfl
  | cons c ct ih =>
    intro vals hc
    have hcc : c ≠ k ∧ ct.contains k = false := by
      constructor
      · intro he
        subst he
        have : (c :: ct).contains c = true :=
          List.elem_iff.mpr (List.mem_cons_self c ct)
        rw [this] at hc
        cases hc
      · by_cases hx : ct.contains k = true
        · have : (c :: ct).contains k = true :=
            List.elem_iff.mpr (List.mem_cons_of_mem c (List.elem_iff.mp hx))
          rw [this] at hc
          cases hc
        · simpa using hx
    cases vals with
    | nil => rfl
    | cons v vt =>
      rw [List.zip_cons_cons, lookupD, if_neg hcc.1]
      exact ih vt hcc.2

/-- A table without a `$meta` column yields rows with an absent dynamic
side-map. -/
theorem rowRecord_meta_none (df : DataFrame) (pk : Int)
    (hm : df.cols.contains "$meta" = false) :
    recGet (rowRecord df pk) "$meta" = .vNone := by
  unfold recGet rowRecord
  rw [lookupD_zip_not_mem _ _ _ hm]
  rfl

/-- Every diff entry the row loop emits comes from a visited key whose
record comparison returned unequal, and tabulates exactly that comparison's
differing fields. -/
theorem cdLoop_spec (C : HPComparator) (df1 df2 : DataFrame)
    (ccols : List String) :
    ∀ (pks : List Int) (ds : List DiffRecord),
      cdLoop C df1 df2 ccols pks = .ok ds → ∀ d ∈ ds, ∃ pk flds, pk ∈ pks ∧
        compare_records C (rowRecord df1 pk) (rowRecord df2 pk) (some ccols) =
          .ok (false, flds) ∧
        d = mkDiff pk flds (rowRecord df1 pk) (rowRecord df2 pk) := by
  intro pks
  induction pks with
  | nil =>
    intro ds h d hd
    simp only [cdLoop, Except.ok.injEq] at h
    subst h
    cases hd
  | cons pk0 rest ih =>
    intro ds h d hd
    cases hcr : compare_records C (rowRecord df1 pk0) (rowRecord df2 pk0)
        (some ccols) with
    | error e =>
      simp only [cdLoop, hcr] at h
      cases h
    | ok pr =>
      obtain ⟨isEq, flds0⟩ := pr
      cases hr : cdLoop C df1 df2 ccols rest with
      | error e =>
        simp only [cdLoop, hcr, hr] at h
        cases h
      | ok ds2 =>
        simp only [cdLoop, hcr, hr, Except.ok.injEq] at h
        subst h
        by_cases hb : isEq = true
        · rw [if_pos hb] at hd
          obtain ⟨pk, flds, hmem, h1, h2⟩ := ih ds2 hr d hd
          exact ⟨pk, flds, List.mem_cons_of_mem _ hmem, h1, h2⟩
        · rw [if_neg hb] at hd
          rcases List.mem_cons.mp hd with hh | hh
          · rw [eq_false_of_ne_true hb] at hcr
            exact ⟨pk0, flds0, List.mem_cons_self _ _, hcr, hh⟩
          · obtain ⟨pk, flds, hmem, h1, h2⟩ := ih ds2 hr d hh
            exact ⟨pk, flds, List.mem_cons_of_mem _ hmem, h1, h2⟩

/-- The keys of the row loop's diff entries form a sublist of the visited
keys (in particular each key is reported at most once when the visited keys
are distinct). -/
theorem cdLoop_keys_sublist (C : HPComparator) (df1 df2 : DataFrame)
    (ccols : List String) :
    ∀ (pks : List Int) (ds : List DiffRecord),
      cdLoop C df1 df2 ccols pks = .ok ds →
        (ds.map DiffRecord.primary_key).Sublist pks := by
  intro pks
  induction pks with
  | nil =>
    intro ds h
    simp only [cdLoop, Except.ok.injEq] at h
    subst h
    simp only [List.map_nil]
    exact List.nil_sublist _
  | cons pk0 rest ih =>
    intro ds h
    cases hcr : compare_records C (rowRecord df1 pk0) (rowRecord df2 pk0)
        (some ccols) with
    | error e =>
      simp only [cdLoop, hcr] at h
      cases h
    | ok pr =>
      obtain ⟨isEq, flds0⟩ := pr
      cases hr : cdLoop C df1 df2 ccols rest with
      | error e =>
        simp only [cdLoop, hcr, hr] at h
        cases h
      | ok ds2 =>
        simp only [cdLoop, hcr, hr, Except.ok.injEq] at h
        subst h
        by_cases hb : isEq = true
        · rw [if_pos hb]
          exact List.Sublist.cons pk0 (ih ds2 hr)
        · rw [if_neg hb]
          show (pk0 :: ds2.map DiffRecord.primary_key).Sublist (pk0 :: rest)
          exact List.Sublist.cons₂ pk0 (ih ds2 hr)

/-- Every visited key whose record comparison returns unequal contributes
its diff entry to the row loop's output. -/
theorem cdLoop_complete (C : HPComparator) (df1 df2 : DataFrame)
    (ccols : List String) :
    ∀ (pks : List Int) (ds : List DiffRecord),
      cdLoop C df1 df2 ccols pks = .ok ds → ∀ pk ∈ pks, ∀ flds,
        compare_records C (rowRecord df1 pk) (rowRecord df2 pk) (some ccols) =
          .ok (false, flds) →
        mkDiff pk flds (rowRecord df1 pk) (rowRecord df2 pk) ∈ ds := by
  intro pks
  induction pks with
  | nil =>
    intro ds h pk hpk
    cases hpk
  | cons pk0 rest ih =>
    intro ds h pk hpk flds hc
    cases hcr : compare_records C (rowRecord df1 pk0) (rowRecord df2 pk0)
        (some ccols) with
    | error e =>
      simp only [cdLoop, hcr] at h
      cases h
    | ok pr =>
      obtain ⟨isEq, flds0⟩ := pr
      cases hr : cdLoop C df1 df2 ccols rest with
      | error e =>
        simp only [cdLoop, hcr, hr] at h
        cases h
      | ok ds2 =>
        simp only [cdLoop, hcr, hr, Except.ok.injEq] at h
        subst h
        rcases List.mem_cons.mp hpk with he | he
        · subst he
          rw [hc] at hcr
          simp only [Except.ok.injEq, Prod.mk.injEq] at hcr
          obtain ⟨h1, h2⟩ := hcr
          subst h2
          rw [if_neg (by rw [← h1]; exact Bool.false_ne_true)]
          exact List.mem_cons_self _ _
        · have hmem := ih ds2 hr pk he flds hc
          by_cases hb : isEq = true
          · rw [if_pos hb]
            exact hmem
          · rw [if_neg hb]
            exact List.mem_cons_of_mem _ hmem

/-- C7 (amended): when neither table has a `$meta` column and the index
intersection is duplicate-free, `compare_tables` aligns rows on the index
intersection and compares the requested column intersection: every diff
record's key lies in both indexes, no key is reported twice, its differing
fields are a nonempty subset of the common columns with both sides' values
tabulated for exactly those fields, every aligned key whose row comparison
is unequal yields its diff record, and the verdict is the diff list's
emptiness. (Unamended, the claim is false: a `$meta` column present on one
side only makes the rows' dynamic maps unequal, and the resulting diff
record names dynamic keys outside the column intersection.) -/
theorem claim_C7_compare_tables (C : HPComparator) (df1 df2 : DataFrame)
    (pkName : String) (b : Bool) (ds : List DiffRecord)
    (hm1 : df1.cols.contains "$meta" = false)
    (hm2 : df2.cols.contains "$meta" = false)
    (hn : (commonIndex df1 df2).Nodup)
    (h : compare_dataframes C df1 df2 pkName = .ok (b, ds)) :
    (∀ d ∈ ds,
      d.primary_key ∈ df1.index ∧ d.primary_key ∈ df2.index ∧
      d.different_fields ≠ [] ∧
      (∀ f ∈ d.different_fields, f ∈ commonCols df1 df2) ∧
      d.milvus_values = d.different_fields.map
        (fun f => (f, recGet (rowRecord df1 d.primary_key) f)) ∧
      d.pg_values = d.different_fields.map
        (fun f => (f, recGet (rowRecord df2 d.primary_key) f))) ∧
    (ds.map DiffRecord.primary_key).Nodup ∧
    (∀ pk ∈ commonIndex df1 df2, ∀ flds,
      compare_records C (rowRecord df1 pk) (rowRecord df2 pk)
        (some (commonCols df1 df2)) = .ok (false, flds) →
      ∃ d ∈ ds, d.primary_key = pk ∧ d.different_fields = flds) ∧
    (b = true ↔ ds = []) := by
  unfold compare_dataframes at h
  cases hcd : cdLoop C df1 df2 (commonCols df1 df2) (commonIndex df1 df2) with
  | error e =>
    simp only [hcd] at h
    cases h
  | ok ds0 =>
    simp only [hcd, Except.ok.injEq, Prod.mk.injEq] at h
    obtain ⟨hb, hds⟩ := h
    subst hds
    refine ⟨?_, ?_, ?_, ?_⟩
    · intro d hd
      obtain ⟨pk, flds, hpk, hc, hdm⟩ :=
        cdLoop_spec C df1 df2 (commonCols df1 df2) (commonIndex df1 df2) _ hcd d hd
      subst hdm
      have hidx := List.mem_filter.mp hpk
      have hfields := compare_records_fields C (rowRecord df1 pk) (rowRecord df2 pk)
        (commonCols df1 df2) false flds
        (rowRecord_meta_none df1 pk hm1) (rowRecord_meta_none df2 pk hm2) hc
      refine ⟨hidx.1, List.elem_iff.mp hidx.2, ?_, ?_, rfl, rfl⟩
      · intro he
        have : (false : Bool) = true := hfields.2.mpr he
        cases this
      · intro f hf
        exact (hfields.1 f hf).1
    · exact (cdLoop_keys_sublist C df1 df2 (commonCols df1 df2)
        (commonIndex df1 df2) _ hcd).nodup hn
    · intro pk hpk flds hc
      exact ⟨mkDiff pk flds (rowRecord df1 pk) (rowRecord df2 pk),
        cdLoop_complete C df1 df2 (commonCols df1 df2) (commonIndex df1 df2)
          _ hcd pk hpk flds hc, rfl, rfl⟩
    · rw [← hb]
      simp [List.isEmpty_iff]

/-- C7 witness: the spec's own scenario — two tables differing only in row
3's `age` — run through the theorem at its concrete diff list. -/
theorem claim_C7_witness :
    (∀ d ∈ [(⟨3, ["age"], [("age", PyValue.vInt 31)],
        [("age", PyValue.vInt 30)]⟩ : DiffRecord)],
      d.primary_key ∈ Fixtures.dfAgeA.index ∧
      d.primary_key ∈ Fixtures.dfAgeB.index ∧
      d.different_fields ≠ [] ∧
      (∀ f ∈ d.different_fields, f ∈ commonCols Fixtures.dfAgeA Fixtures.dfAgeB)) ∧
    ((false = true) ↔
      [(⟨3, ["age"], [("age", PyValue.vInt 31)],
        [("age", PyValue.vInt 30)]⟩ : DiffRecord)] = []) :=
  have H := claim_C7_compare_tables Fixtures.intCmp Fixtures.dfAgeA
    Fixtures.dfAgeB "id" false
    [⟨3, ["age"], [("age", PyValue.vInt 31)], [("age", PyValue.vInt 30)]⟩]
    (by decide) (by decide) (by decide) rfl
  ⟨fun d hd => ⟨(H.1 d hd).1, (H.1 d hd).2.1, (H.1 d hd).2.2.1,
    (H.1 d hd).2.2.2.1⟩, H.2.2.2⟩
